import Mathlib

/-!
# Night-vision viewer (ESP32-CAM): pixel transform, fault monitor and activation timer

A shallow embedding of `src/main.cpp`.

* Byte buffers (`uint8_t*`, `uint16_t*`) are `List Nat`; element `i` of the list is the
  cell at offset `i`.  A store writes with `List.set`, a load reads with `List.getD _ _ 0`.
* `uint8_t` arithmetic is reduced `% 256`, `uint16_t` stores `% 65536`, `unsigned long`
  (32 bit on the ESP32) subtraction is taken modulo `2^32`.
* `int` parameters are `Int`; C division is `Int.tdiv` (truncation toward zero).
* Everything the firmware obtains from the hardware during one pass of `loop()` (the clock,
  the button level, the camera frame, the outcome of `malloc` and of `esp_camera_init`)
  is an input of the tick.  Calls into the drivers are recorded as a list of events.
* `ESP.restart()` does not return: the tick ends in `Outcome.restarted`.
-/

namespace NightVision

/-! ## Pixel transform -/

/-- The body of the loop of `convertGrayscaleToRGB565` for one sample `gray`
(a `uint8_t`): `r`, `g`, `b` are `uint8_t`, the packed value is stored to a `uint16_t`. -/
def rgb565Pixel (gray : Nat) : Nat :=
  let r := (gray >>> 4) % 256
  let g := (gray >>> 2) % 256
  let b := (gray >>> 4) % 256
  ((r <<< 11) ||| (g <<< 5) ||| b) % 65536

/-- `convertGrayscaleToRGB565(grayscale, rgb565, width, height)`: returns the contents of
`rgb565` after the call.  The loop `for (int i = 0; i < width * height; i++)` is a fold
over `0, 1, ..., width*height - 1`. -/
def convertGrayscaleToRGB565 (grayscale rgb565 : List Nat) (width height : Int) : List Nat :=
  (List.range (width * height).toNat).foldl
    (fun out i => out.set i (rgb565Pixel (grayscale.getD i 0 % 256))) rgb565

/-- `memcpy(dst + dOff, src + sOff, n)` for regions that do not overlap: returns the contents
of the destination buffer after the copy, made byte by byte. -/
def memcpy (dst : List Nat) (dOff : Nat) (src : List Nat) (sOff n : Nat) : List Nat :=
  (List.range n).foldl (fun d k => d.set (dOff + k) (src.getD (sOff + k) 0)) dst

/-- One pass of the body of the loop of `flipImageVertical` for the row index `y`:
three `memcpy` calls through the one-row buffer `temp_row`. -/
def flipRow (width height : Int) (image : List Nat) (y : Nat) : List Nat :=
  let temp_row := memcpy (List.replicate width.toNat 0) 0 image ((y : Int) * width).toNat width.toNat
  let image1 := memcpy image ((y : Int) * width).toNat image ((height - 1 - y) * width).toNat width.toNat
  memcpy image1 ((height - 1 - y) * width).toNat temp_row 0 width.toNat

/-- `flipImageVertical(image, width, height)`: returns the contents of `image` after the
call.  `mallocOk` tells whether `malloc(width)` returned a buffer; when it did not the
function returns at once.  The loop `for (int y = 0; y < height / 2; y++)` is a fold over
`0, ..., height/2 - 1`. -/
def flipImageVertical (mallocOk : Bool) (image : List Nat) (width height : Int) : List Nat :=
  if !mallocOk then image
  else (List.range (height.tdiv 2).toNat).foldl (flipRow width height) image

/-! ## Control loop state -/

/-- The `unsigned long` type of the ESP32 has 32 bits. -/
def ULONG_RANGE : Nat := 4294967296

/-- Subtraction of two `unsigned long` values, modulo `2^32`. -/
def usub (a b : Nat) : Nat := (a % ULONG_RANGE + ULONG_RANGE - b % ULONG_RANGE) % ULONG_RANGE

/-- `ACTIVE_TIME = 5UL * 60 * 1000`, five minutes in milliseconds. -/
def ACTIVE_TIME : Nat := 5 * 60 * 1000

/-- Pixel format of a camera frame: `PIXFORMAT_GRAYSCALE` or any other format. -/
inductive PixFormat
  | grayscale
  | other
  deriving DecidableEq

/-- The fields of `camera_fb_t` that `loop()` reads. -/
structure CameraFb where
  buf : List Nat
  len : Nat
  width : Nat
  height : Nat
  format : PixFormat
  deriving DecidableEq

/-- The global variables of `main.cpp`.  `HIGH` is `true`, `LOW` is `false`;
`displayBuffer = none` is the null pointer. -/
structure State where
  lastActivation : Nat
  isActive : Bool
  systemReady : Bool
  lastFrameTime : Nat
  frameCounter : Nat
  lastButtonState : Bool
  buttonPressed : Bool
  lastFPSUpdate : Nat
  fpsCounter : Nat
  currentFPS : Nat
  cameraErrors : Nat
  bufferErrors : Nat
  lastErrorTime : Nat
  errorRecoveryMode : Bool
  displayBuffer : Option (List Nat)

/-- What one pass of `loop()` obtains from the hardware: `millis()`, the level of
`digitalRead(BUTTON_PIN)`, the result of `esp_camera_fb_get()`, whether `malloc` succeeds in
`flipImageVertical` and in `reallocateBuffer`, and whether `esp_camera_init` returns `ESP_OK`
in `reinitializeCamera`. -/
structure TickInput where
  now : Nat
  button : Bool
  fb : Option CameraFb
  tempRowOk : Bool
  reallocOk : Bool
  reinitOk : Bool

/-- The message argument of `displayError`. -/
inductive ErrorMsg
  | bufferNull
  | bufferAlloc
  | kameraFehler
  | kameraInit
  deriving DecidableEq

/-- Calls into the drivers made during a pass of `loop()`, in program order. -/
inductive Event
  | fbGet
  | fbReturn
  | reinitializeCamera
  | restart
  | displayError (msg : ErrorMsg) (code : Nat)
  | drawRGBBitmap
  | printFPS (v : Nat)
  | screenActive
  | screenStandby
  | screenCameraOk
  deriving DecidableEq

/-- How the frame-cycle block of `loop()` is left: by falling through to the timeout check,
by the `return` of the buffer-recovery path, or by `ESP.restart()`. -/
inductive CycleExit
  | fallthrough (s : State)
  | returned (s : State)
  | restarted

/-- How a pass of `loop()` ends: it returns with the globals `s`, or the device restarts. -/
inductive Outcome
  | running (s : State)
  | restarted

/-- The contents of a buffer of 160*120 pixels just obtained from `malloc`
(taken as zeros; the firmware writes every cell before it reads one). -/
def freshDisplayBuffer : List Nat := List.replicate (160 * 120) 0

/-- The globals when `setup()` has completed: the initialisers of `main.cpp`, with
`systemReady = true` and `displayBuffer` allocated (`setup()` never completes otherwise). -/
def bootState : State :=
  { lastActivation := 0, isActive := false, systemReady := true, lastFrameTime := 0,
    frameCounter := 0, lastButtonState := false, buttonPressed := false,
    lastFPSUpdate := 0, fpsCounter := 0, currentFPS := 0, cameraErrors := 0,
    bufferErrors := 0, lastErrorTime := 0, errorRecoveryMode := false,
    displayBuffer := some freshDisplayBuffer }

/-- `reinitializeCamera()`: returns `false` when `esp_camera_init` fails, `true` otherwise. -/
def reinitializeCamera (initOk : Bool) : Bool :=
  if !initOk then false else true

/-- `reallocateBuffer()`: frees the buffer if there is one, allocates a new one and returns
whether the allocation succeeded. -/
def reallocateBuffer (s : State) (mallocOk : Bool) : State × Bool :=
  let s1 := if s.displayBuffer.isSome then { s with displayBuffer := none } else s
  let s2 := { s1 with
    displayBuffer := if mallocOk then some freshDisplayBuffer else none }
  (s2, s2.displayBuffer.isSome)

/-- Lines 273-292 of `loop()`: edge detection on the button and the toggle logic. -/
def buttonStep (s : State) (now : Nat) (currentButtonState : Bool) : State × List Event :=
  let s1 := if currentButtonState = false ∧ s.lastButtonState = true
    then { s with buttonPressed := true } else s
  let s2 := { s1 with lastButtonState := currentButtonState }
  if s2.buttonPressed then
    let s3 := { s2 with buttonPressed := false, lastActivation := now }
    if !s3.isActive then
      ({ s3 with isActive := true, frameCounter := 0, lastFrameTime := now },
        [Event.screenActive])
    else (s3, [])
  else (s2, [])

/-- The test `fb->format == PIXFORMAT_GRAYSCALE && fb->width == 160 && fb->height == 120 &&
fb->len > 0` of `loop()` on a frame that is not null. -/
def fbOk (fb : CameraFb) : Bool :=
  fb.format == PixFormat.grayscale && fb.width == 160 && fb.height == 120 && decide (fb.len > 0)

/-- The `else` branch of the frame test (lines 345-366) followed by line 368:
`hasFb` tells whether `fb` is not null. -/
def cameraFault (s : State) (now : Nat) (hasFb : Bool) (reinitOk : Bool) :
    CycleExit × List Event :=
  let s1 := { s with cameraErrors := (s.cameraErrors + 1) % 256, lastErrorTime := now }
  let ret := if hasFb then [Event.fbReturn] else []
  if s1.cameraErrors > 5 && !s1.errorRecoveryMode then
    let s2 := { s1 with errorRecoveryMode := true }
    if !reinitializeCamera reinitOk then
      (CycleExit.restarted,
        [Event.displayError ErrorMsg.kameraFehler s2.cameraErrors, Event.reinitializeCamera,
          Event.displayError ErrorMsg.kameraInit s2.cameraErrors, Event.restart])
    else
      (CycleExit.fallthrough { s2 with cameraErrors := 0 },
        [Event.displayError ErrorMsg.kameraFehler s2.cameraErrors, Event.reinitializeCamera,
          Event.screenCameraOk] ++ ret)
  else (CycleExit.fallthrough s1, ret)

/-- The `then` branch of the frame test (lines 304-343) followed by line 368, for a frame
`fb` that passed the test. -/
def frameSuccess (s : State) (inp : TickInput) (fb : CameraFb) : CycleExit × List Event :=
  match s.displayBuffer with
  | none =>
    let s1 := { s with bufferErrors := (s.bufferErrors + 1) % 256 }
    let r := reallocateBuffer s1 inp.reallocOk
    if !r.2 then
      (CycleExit.restarted,
        [Event.displayError ErrorMsg.bufferNull s1.bufferErrors,
          Event.displayError ErrorMsg.bufferAlloc s1.bufferErrors, Event.restart])
    else
      (CycleExit.returned r.1,
        [Event.displayError ErrorMsg.bufferNull s1.bufferErrors, Event.fbReturn])
  | some disp =>
    let buf := flipImageVertical inp.tempRowOk fb.buf 160 120
    let disp1 := convertGrayscaleToRGB565 buf disp 160 120
    let s1 := { s with
      displayBuffer := some disp1
      frameCounter := (s.frameCounter + 1) % 256
      fpsCounter := (s.fpsCounter + 1) % 256
      cameraErrors := 0
      errorRecoveryMode := false }
    if usub inp.now s1.lastFPSUpdate ≥ 5000 then
      (CycleExit.fallthrough
          { s1 with currentFPS := s1.fpsCounter, fpsCounter := 0, lastFPSUpdate := inp.now },
        [Event.drawRGBBitmap, Event.printFPS s1.fpsCounter, Event.fbReturn])
    else (CycleExit.fallthrough s1, [Event.drawRGBBitmap, Event.fbReturn])

/-- The frame cycle, lines 297-368 of `loop()`: the block guarded by
`now - lastFrameTime >= 50`. -/
def frameCycle (s0 : State) (inp : TickInput) : CycleExit × List Event :=
  let s := { s0 with lastFrameTime := inp.now }
  let r := match inp.fb with
    | some fb => if fbOk fb then frameSuccess s inp fb else cameraFault s inp.now true inp.reinitOk
    | none => cameraFault s inp.now false inp.reinitOk
  (r.1, Event.fbGet :: r.2)

/-- The timeout check, lines 372-382 of `loop()`. -/
def timeoutCheck (s : State) (now : Nat) : State × List Event :=
  if usub now s.lastActivation > ACTIVE_TIME then
    ({ s with isActive := false }, [Event.screenStandby])
  else (s, [])

/-- The part of `loop()` under `if (isActive)`, lines 294-383. -/
def activeStep (s : State) (inp : TickInput) : Outcome × List Event :=
  if usub inp.now s.lastFrameTime ≥ 50 then
    match frameCycle s inp with
    | (CycleExit.restarted, ev) => (Outcome.restarted, ev)
    | (CycleExit.returned s2, ev) => (Outcome.running s2, ev)
    | (CycleExit.fallthrough s2, ev) =>
      (Outcome.running (timeoutCheck s2 inp.now).1, ev ++ (timeoutCheck s2 inp.now).2)
  else (Outcome.running (timeoutCheck s inp.now).1, (timeoutCheck s inp.now).2)

/-- One pass of `loop()`. -/
def loop (s : State) (inp : TickInput) : Outcome × List Event :=
  if !s.systemReady then (Outcome.running s, [])
  else
    let b := buttonStep s inp.now inp.button
    if b.1.isActive then
      ((activeStep b.1 inp).1, b.2 ++ (activeStep b.1 inp).2)
    else (Outcome.running b.1, b.2)

/-- Successive passes of `loop()` on a list of inputs; a restart ends the run. -/
def run : State → List TickInput → Outcome × List Event
  | s, [] => (Outcome.running s, [])
  | s, inp :: rest =>
    match loop s inp with
    | (Outcome.restarted, ev) => (Outcome.restarted, ev)
    | (Outcome.running s1, ev) => ((run s1 rest).1, ev ++ (run s1 rest).2)

/-- Successive frame cycles on a list of inputs; a restart ends the run. -/
def runCycles : State → List TickInput → Outcome × List Event
  | s, [] => (Outcome.running s, [])
  | s, inp :: rest =>
    match frameCycle s inp with
    | (CycleExit.restarted, ev) => (Outcome.restarted, ev)
    | (CycleExit.returned s1, ev) => ((runCycles s1 rest).1, ev ++ (runCycles s1 rest).2)
    | (CycleExit.fallthrough s1, ev) => ((runCycles s1 rest).1, ev ++ (runCycles s1 rest).2)

/-- A frame cycle is faulty when the frame is missing or fails the test of `loop()`
(wrong format, wrong width or height, or `len = 0`). -/
def faulty (inp : TickInput) : Bool :=
  match inp.fb with
  | some fb => !fbOk fb
  | none => true

/-- A press is recognised in a tick when the sampled level is `LOW` and the previous sample
was `HIGH`. -/
def pressRecognised (s : State) (inp : TickInput) : Bool :=
  !inp.button && s.lastButtonState

/-- The clock readings of the inputs are at least `t`, non-decreasing, and below `2^32`. -/
def clockOk : Nat → List TickInput → Bool
  | _, [] => true
  | t, inp :: rest => decide (t ≤ inp.now) && decide (inp.now < ULONG_RANGE) && clockOk inp.now rest

/-- Number of `drawRGBBitmap` events (successful frames) in a trace after its last
`printFPS`, added to `pending` when the trace has no `printFPS`. -/
def pendingAfter : Nat → List Event → Nat
  | pending, [] => pending
  | pending, Event.drawRGBBitmap :: es => pendingAfter (pending + 1) es
  | _, Event.printFPS _ :: es => pendingAfter 0 es
  | pending, _ :: es => pendingAfter pending es

/-- Every `printFPS v` of the trace shows the number of `drawRGBBitmap` events since the
previous `printFPS` (since the start of the trace, plus `pending`, for the first one). -/
def reportsExact : Nat → List Event → Bool
  | _, [] => true
  | pending, Event.drawRGBBitmap :: es => reportsExact (pending + 1) es
  | pending, Event.printFPS v :: es => decide (v = pending) && reportsExact 0 es
  | pending, _ :: es => reportsExact pending es

/-- The states the firmware can be in between two passes of `loop()`: the state after
`setup()`, and any state a pass of `loop()` returns with from such a state. -/
inductive Reachable : State → Prop
  | boot : Reachable bootState
  | tick (s s1 : State) (inp : TickInput) (h : Reachable s)
      (hstep : (loop s inp).1 = Outcome.running s1) : Reachable s1

/-- The globals a pass of `loop()` returned with, if it returned. -/
def Outcome.state? : Outcome → Option State
  | Outcome.running s => some s
  | Outcome.restarted => none

/-- Whether the frame cycle ended in `ESP.restart()`. -/
def CycleExit.isRestarted : CycleExit → Bool
  | CycleExit.restarted => true
  | _ => false

/-- The globals the frame cycle ended with, if it did not restart the device. -/
def CycleExit.state? : CycleExit → Option State
  | CycleExit.fallthrough s => some s
  | CycleExit.returned s => some s
  | CycleExit.restarted => none

/-- No press is recognised in the ticks of the list: no sample is `LOW` with the sample before
it `HIGH`; `prev` is the sample before the first one. -/
def noPressAfter : Bool → List TickInput → Bool
  | _, [] => true
  | prev, inp :: rest => !(!inp.button && prev) && noPressAfter inp.button rest

/-- Invariant of the FPS counter between two passes of `loop()`, at clock reading `t`, with
`pending` successful frames since the last report: the 8-bit counter holds `pending`
exactly, and the frames counted were at least 50 ms apart after the last report. -/
def FpsInv (s : State) (t pending : Nat) : Prop :=
  s.fpsCounter = pending ∧ s.lastFPSUpdate ≤ s.lastFrameTime ∧ s.lastFrameTime ≤ t ∧
    50 * pending ≤ s.lastFrameTime - s.lastFPSUpdate ∧ pending ≤ 99

/-! ### Concrete inputs -/

/-- A tick at clock reading `t` with the button released and no frame from the camera. -/
def tickHigh (t : Nat) : TickInput :=
  { now := t, button := true, fb := none, tempRowOk := true, reallocOk := true,
    reinitOk := true }

/-- A tick at clock reading `t` with the button held down and no frame from the camera. -/
def tickLow (t : Nat) : TickInput :=
  { now := t, button := false, fb := none, tempRowOk := true, reallocOk := true,
    reinitOk := true }

/-- A 160x120 grayscale frame of 19200 bytes. -/
def goodFrame : CameraFb :=
  { buf := List.replicate 19200 7, len := 19200, width := 160, height := 120,
    format := PixFormat.grayscale }

/-- A 160x120 frame of 19200 bytes in a format other than grayscale. -/
def wrongFormatFrame : CameraFb :=
  { buf := List.replicate 19200 7, len := 19200, width := 160, height := 120,
    format := PixFormat.other }

/-- A tick at clock reading `t`, button held down, the camera delivering `fb`, and
`esp_camera_init` returning `ESP_OK` or not according to `reinitOk`. -/
def tickFrame (t : Nat) (fb : CameraFb) (reinitOk : Bool) : TickInput :=
  { now := t, button := false, fb := some fb, tempRowOk := true, reallocOk := true,
    reinitOk := reinitOk }

/-- The globals after the first tick `tickHigh 0` from `bootState`: the button was sampled
released. -/
def stateReleased : State := { bootState with lastButtonState := true }

/-- The globals after the press tick `tickLow 1000` from `stateReleased`: the session is
active, stamped at 1000; the tick ran no frame cycle. -/
def statePressed : State :=
  { bootState with isActive := true, lastActivation := 1000, lastFrameTime := 1000 }

/-- The globals after the tick `tickLow 301000` from `statePressed`: a frame cycle without a
frame was counted as a fault and the session is still active. -/
def stateAtDeadline : State :=
  { bootState with isActive := true, lastActivation := 1000, lastFrameTime := 301000,
                   cameraErrors := 1, lastErrorTime := 301000 }

/-! ## Proofs: buffer lemmas -/

theorem foldl_set_length (f : Nat → Nat) (off n : Nat) (init : List Nat) :
    ((List.range n).foldl (fun d k => d.set (off + k) (f k)) init).length = init.length := by
  induction n with
  | zero => simp
  | succ n ih => simp [List.range_succ, List.foldl_append, ih]

theorem foldl_set_getElem? (f : Nat → Nat) (off n : Nat) (init : List Nat) (j : Nat) :
    ((List.range n).foldl (fun d k => d.set (off + k) (f k)) init)[j]? =
      if off ≤ j ∧ j < off + n ∧ j < init.length then some (f (j - off)) else init[j]? := by
  induction n with
  | zero =>
    rw [if_neg (by omega)]
    rfl
  | succ n ih =>
    rw [List.range_succ, List.foldl_append, List.foldl_cons, List.foldl_nil,
      List.getElem?_set, foldl_set_length, ih]
    by_cases h1 : off + n = j
    · subst h1
      by_cases h2 : off + n < init.length
      · simp [h2]
      · have h3 : init[off + n]? = none := List.getElem?_eq_none (by omega)
        simp [h2, h3]
    · rw [if_neg h1]
      by_cases h2 : off ≤ j ∧ j < off + n ∧ j < init.length
      · rw [if_pos h2, if_pos (by omega)]
      · rw [if_neg h2, if_neg (by omega)]

theorem foldl_set_getD (f : Nat → Nat) (off n : Nat) (init : List Nat) (j : Nat) :
    ((List.range n).foldl (fun d k => d.set (off + k) (f k)) init).getD j 0 =
      if off ≤ j ∧ j < off + n ∧ j < init.length then f (j - off) else init.getD j 0 := by
  rw [List.getD_eq_getElem?_getD, List.getD_eq_getElem?_getD, foldl_set_getElem?]
  split <;> rfl

theorem memcpy_length (dst : List Nat) (dOff : Nat) (src : List Nat) (sOff n : Nat) :
    (memcpy dst dOff src sOff n).length = dst.length :=
  foldl_set_length (fun k => src.getD (sOff + k) 0) dOff n dst

theorem memcpy_getD (dst : List Nat) (dOff : Nat) (src : List Nat) (sOff n j : Nat) :
    (memcpy dst dOff src sOff n).getD j 0 =
      if dOff ≤ j ∧ j < dOff + n ∧ j < dst.length then src.getD (sOff + (j - dOff)) 0
      else dst.getD j 0 :=
  foldl_set_getD (fun k => src.getD (sOff + k) 0) dOff n dst j

theorem list_eq_of_getD (l1 l2 : List Nat) (hlen : l1.length = l2.length)
    (h : ∀ j, j < l1.length → l1.getD j 0 = l2.getD j 0) : l1 = l2 := by
  apply List.ext_getElem hlen
  intro j h1 h2
  have := h j h1
  rwa [List.getD_eq_getElem _ _ h1, List.getD_eq_getElem _ _ h2] at this

theorem convert_length (grayscale rgb565 : List Nat) (width height : Int) :
    (convertGrayscaleToRGB565 grayscale rgb565 width height).length = rgb565.length := by
  have := foldl_set_length (fun k => rgb565Pixel (grayscale.getD k 0 % 256)) 0
    (width * height).toNat rgb565
  simpa [convertGrayscaleToRGB565] using this

theorem convert_getD (grayscale rgb565 : List Nat) (width height : Int) (j : Nat) :
    (convertGrayscaleToRGB565 grayscale rgb565 width height).getD j 0 =
      if j < (width * height).toNat ∧ j < rgb565.length then
        rgb565Pixel (grayscale.getD j 0 % 256)
      else rgb565.getD j 0 := by
  have := foldl_set_getD (fun k => rgb565Pixel (grayscale.getD k 0 % 256)) 0
    (width * height).toNat rgb565 j
  simpa [convertGrayscaleToRGB565] using this

set_option maxRecDepth 1000000 in
theorem rgb565Pixel_byte : ∀ g : Fin 256,
    rgb565Pixel g.val = (((g.val >>> 4) <<< 11) ||| ((g.val >>> 2) <<< 5) ||| (g.val >>> 4)) ∧
    (((g.val >>> 4) <<< 11) ||| ((g.val >>> 2) <<< 5) ||| (g.val >>> 4)) < 65536 ∧
    (g.val >>> 4) <<< 11 < 65536 ∧ (g.val >>> 2) <<< 5 < 65536 ∧
    g.val >>> 4 < 256 ∧ g.val >>> 2 < 256 := by
  decide

/-- C1: for every index `i < width*height` inside both buffers whose sample
`g = grayscale[i]` is a byte, `convertGrayscaleToRGB565` leaves
`rgb565[i] = ((g>>4)<<11) | ((g>>2)<<5) | (g>>4)`; that value and every shifted part fit
their types (below `2^16`, channels below `2^8`), so no truncation changes them; and the
packed values of `g = 0, 16, 128, 255` are `0x0000, 0x0881, 0x4408, 0x7FEF`. -/
theorem convertGrayscaleToRGB565_spec (grayscale rgb565 : List Nat) (width height : Int)
    (i : Nat) (hi : (i : Int) < width * height) (hg : i < grayscale.length)
    (hr : i < rgb565.length) (hbyte : grayscale[i] < 256) :
    (convertGrayscaleToRGB565 grayscale rgb565 width height)[i]? =
        some (((grayscale[i] >>> 4) <<< 11) ||| ((grayscale[i] >>> 2) <<< 5) |||
          (grayscale[i] >>> 4)) ∧
      ((grayscale[i] >>> 4) <<< 11) ||| ((grayscale[i] >>> 2) <<< 5) |||
          (grayscale[i] >>> 4) < 65536 ∧
      (grayscale[i] >>> 4) <<< 11 < 65536 ∧ (grayscale[i] >>> 2) <<< 5 < 65536 ∧
      grayscale[i] >>> 4 < 256 ∧ grayscale[i] >>> 2 < 256 ∧
      (convertGrayscaleToRGB565 grayscale rgb565 width height).length = rgb565.length ∧
      rgb565Pixel 0 = 0x0000 ∧ rgb565Pixel 16 = 0x0881 ∧ rgb565Pixel 128 = 0x4408 ∧
      rgb565Pixel 255 = 0x7FEF := by
  have hb := rgb565Pixel_byte ⟨grayscale[i], hbyte⟩
  simp only at hb
  obtain ⟨h1, h2, h3, h4, h5, h6⟩ := hb
  have hi2 : i < (width * height).toNat := by omega
  refine ⟨?_, h2, h3, h4, h5, h6, convert_length _ _ _ _, by decide, by decide, by decide,
    by decide⟩
  have hlen : i < (convertGrayscaleToRGB565 grayscale rgb565 width height).length := by
    rw [convert_length]; exact hr
  have hget := convert_getD grayscale rgb565 width height i
  rw [if_pos ⟨hi2, hr⟩, List.getD_eq_getElem _ _ hlen, List.getD_eq_getElem _ _ hg,
    Nat.mod_eq_of_lt hbyte, h1] at hget
  rw [List.getElem?_eq_getElem hlen, hget]

theorem convertGrayscaleToRGB565_spec_witness :
    (convertGrayscaleToRGB565 [0, 16, 128, 255] [9, 9, 9, 9] 2 2)[3]? = some 0x7FEF ∧
      (convertGrayscaleToRGB565 [0, 16, 128, 255] [9, 9, 9, 9] 2 2)[1]? = some 0x0881 :=
  ⟨(convertGrayscaleToRGB565_spec [0, 16, 128, 255] [9, 9, 9, 9] 2 2 3 (by decide) (by decide)
    (by decide) (by decide)).1,
   (convertGrayscaleToRGB565_spec [0, 16, 128, 255] [9, 9, 9, 9] 2 2 1 (by decide) (by decide)
    (by decide) (by decide)).1⟩

/-! ## Vertical flip -/

theorem row_index_iff (a r w x : Nat) (hx : x < w) :
    (a * w ≤ r * w + x ∧ r * w + x < a * w + w) ↔ r = a := by
  constructor
  · rintro ⟨h1, h2⟩
    by_contra hne
    rcases Nat.lt_or_gt_of_ne hne with h | h
    · have := Nat.mul_le_mul_right w (Nat.succ_le_of_lt h)
      rw [Nat.succ_mul] at this
      omega
    · have := Nat.mul_le_mul_right w (Nat.succ_le_of_lt h)
      rw [Nat.succ_mul] at this
      omega
  · rintro rfl
    omega

theorem row_index_lt (r w h x : Nat) (hr : r < h) (hx : x < w) : r * w + x < w * h := by
  have := Nat.mul_le_mul_right w (Nat.succ_le_of_lt hr)
  rw [Nat.succ_mul, Nat.mul_comm h w] at this
  omega

theorem toNat_row (y w : Nat) : ((y : Int) * (w : Int)).toNat = y * w := by
  rw [← Int.natCast_mul, Int.toNat_natCast]

theorem toNat_mirror_row (y w h : Nat) (hy : y < h) :
    (((h : Int) - 1 - (y : Int)) * (w : Int)).toNat = (h - 1 - y) * w := by
  have : ((h : Int) - 1 - (y : Int)) = ((h - 1 - y : Nat) : Int) := by omega
  rw [this, ← Int.natCast_mul, Int.toNat_natCast]

theorem toNat_half (h : Nat) : ((h : Int).tdiv 2).toNat = h / 2 := by
  rw [show (2 : Int) = ((2 : Nat) : Int) from rfl, ← Int.ofNat_tdiv, Int.toNat_natCast]

theorem flipRow_length (width height : Int) (image : List Nat) (y : Nat) :
    (flipRow width height image y).length = image.length := by
  simp [flipRow, memcpy_length]

/-- One pass of the loop body swaps row `y` with row `h-1-y` and keeps every other row. -/
theorem flipRow_getD (w h y : Nat) (hy : y < h / 2) (image : List Nat)
    (hlen : image.length = w * h) (r x : Nat) (hr : r < h) (hx : x < w) :
    (flipRow (w : Int) (h : Int) image y).getD (r * w + x) 0 =
      if r = y then image.getD ((h - 1 - y) * w + x) 0
      else if r = h - 1 - y then image.getD (y * w + x) 0
      else image.getD (r * w + x) 0 := by
  have hyh : y < h := by omega
  have hj : r * w + x < w * h := row_index_lt r w h x hr hx
  unfold flipRow
  simp only [toNat_row, toNat_mirror_row y w h hyh, Int.toNat_natCast]
  rw [memcpy_getD, memcpy_length, hlen]
  by_cases h1 : r = h - 1 - y
  · have hne : r ≠ y := by omega
    have c1 : (h - 1 - y) * w ≤ r * w + x ∧ r * w + x < (h - 1 - y) * w + w ∧
        r * w + x < w * h := by
      have := (row_index_iff (h - 1 - y) r w x hx).2 h1
      exact ⟨this.1, this.2, hj⟩
    rw [if_pos c1, if_neg hne, if_pos h1, memcpy_getD, List.length_replicate]
    have hk : r * w + x - (h - 1 - y) * w = x := by subst h1; omega
    rw [hk, if_pos (by omega)]
    simp
  · have c1 : ¬ ((h - 1 - y) * w ≤ r * w + x ∧ r * w + x < (h - 1 - y) * w + w ∧
        r * w + x < w * h) := by
      intro hc
      exact h1 ((row_index_iff (h - 1 - y) r w x hx).1 ⟨hc.1, hc.2.1⟩)
    rw [if_neg c1, memcpy_getD, hlen]
    by_cases h2 : r = y
    · have c2 : y * w ≤ r * w + x ∧ r * w + x < y * w + w ∧ r * w + x < w * h := by
        have := (row_index_iff y r w x hx).2 h2
        exact ⟨this.1, this.2, hj⟩
      have hk : r * w + x - y * w = x := by subst h2; omega
      rw [if_pos c2, if_pos h2, hk]
    · have c2 : ¬ (y * w ≤ r * w + x ∧ r * w + x < y * w + w ∧ r * w + x < w * h) := by
        intro hc
        exact h2 ((row_index_iff y r w x hx).1 ⟨hc.1, hc.2.1⟩)
      rw [if_neg c2, if_neg h2, if_neg h1]

theorem flipLoop_length (width height : Int) (k : Nat) (image : List Nat) :
    ((List.range k).foldl (flipRow width height) image).length = image.length := by
  induction k with
  | zero => simp
  | succ k ih =>
    rw [List.range_succ, List.foldl_append, List.foldl_cons, List.foldl_nil, flipRow_length, ih]

/-- Loop invariant of `flipImageVertical`: after `k` passes the first `k` and the last `k`
rows are exchanged in mirror order and the rows between them are as they were. -/
theorem flipLoop_getD (w h : Nat) (image : List Nat) (hlen : image.length = w * h) (k : Nat)
    (hk : k ≤ h / 2) (r x : Nat) (hr : r < h) (hx : x < w) :
    ((List.range k).foldl (flipRow (w : Int) (h : Int)) image).getD (r * w + x) 0 =
      if r < k ∨ h - 1 - r < k then image.getD ((h - 1 - r) * w + x) 0
      else image.getD (r * w + x) 0 := by
  induction k generalizing r with
  | zero => simp
  | succ k ih =>
    have hk1 : k ≤ h / 2 := by omega
    have hk2 : k < h / 2 := by omega
    rw [List.range_succ, List.foldl_append, List.foldl_cons, List.foldl_nil,
      flipRow_getD w h k hk2 _ (by rw [flipLoop_length, hlen]) r x hr hx]
    by_cases h1 : r = k
    · subst h1
      rw [if_pos rfl, ih hk1 (h - 1 - r) (by omega), if_neg (by omega), if_pos (by omega)]
    · rw [if_neg h1]
      by_cases h2 : r = h - 1 - k
      · rw [if_pos h2, ih hk1 k (by omega), if_neg (by omega), if_pos (by omega)]
        have : h - 1 - r = k := by omega
        rw [this]
      · rw [if_neg h2, ih hk1 r hr]
        by_cases h3 : r < k ∨ h - 1 - r < k
        · rw [if_pos h3, if_pos (by omega)]
        · rw [if_neg h3, if_neg (by omega)]

theorem flip_length (mallocOk : Bool) (image : List Nat) (width height : Int) :
    (flipImageVertical mallocOk image width height).length = image.length := by
  unfold flipImageVertical
  split
  · rfl
  · exact flipLoop_length _ _ _ _

/-- With the row buffer obtained, `flipImageVertical` leaves at row `r`, column `x` the byte
the image had at row `h-1-r`, column `x`. -/
theorem flip_getD (w h : Nat) (image : List Nat) (hlen : image.length = w * h)
    (r x : Nat) (hr : r < h) (hx : x < w) :
    (flipImageVertical true image (w : Int) (h : Int)).getD (r * w + x) 0 =
      image.getD ((h - 1 - r) * w + x) 0 := by
  unfold flipImageVertical
  simp only [Bool.not_true, Bool.false_eq_true, if_false, toNat_half]
  rw [flipLoop_getD w h image hlen (h / 2) (le_refl _) r x hr hx]
  by_cases h3 : r < h / 2 ∨ h - 1 - r < h / 2
  · rw [if_pos h3]
  · rw [if_neg h3]
    have : h - 1 - r = r := by omega
    rw [this]

/-- With the row buffer obtained both times, flipping twice gives the image back. -/
theorem flip_flip (w h : Nat) (hw : 1 ≤ w) (image : List Nat) (hlen : image.length = w * h) :
    flipImageVertical true (flipImageVertical true image (w : Int) (h : Int)) (w : Int) (h : Int) =
      image := by
  apply list_eq_of_getD
  · rw [flip_length, flip_length]
  · intro j hj
    rw [flip_length, flip_length, hlen] at hj
    obtain ⟨r, x, hr, hx, rfl⟩ : ∃ r x, r < h ∧ x < w ∧ j = r * w + x :=
      ⟨j / w, j % w, Nat.div_lt_of_lt_mul hj, Nat.mod_lt _ (by omega), by
        rw [Nat.mul_comm]; exact (Nat.div_add_mod j w).symm⟩
    rw [flip_getD w h _ (by rw [flip_length, hlen]) r x hr hx,
      flip_getD w h image hlen (h - 1 - r) x (by omega) hx]
    have : h - 1 - (h - 1 - r) = r := by omega
    rw [this]

theorem toNat_cell (y w x : Nat) : ((y : Int) * (w : Int) + (x : Int)).toNat = y * w + x := by
  have : ((y : Int) * (w : Int) + (x : Int)) = ((y * w + x : Nat) : Int) := by push_cast; ring
  rw [this, Int.toNat_natCast]

theorem toNat_mirror_cell (y w h x : Nat) (hy : y < h) :
    (((h : Int) - 1 - (y : Int)) * (w : Int) + (x : Int)).toNat = (h - 1 - y) * w + x := by
  have : ((h : Int) - 1 - (y : Int)) = ((h - 1 - y : Nat) : Int) := by omega
  rw [this, toNat_cell]

/-- C2: for every `width >= 1`, every `height >= 0` and every image of `width*height` bytes,
when the row buffer is obtained `flipImageVertical` keeps the size of the image and leaves
at row `y`, column `x` the byte that was at row `height-1-y`, column `x`, for every
`y < height` and `x < width`; when `height` is odd the middle row `height/2` is as it was. -/
theorem flipImageVertical_spec (image : List Nat) (width height : Int) (hw : 1 ≤ width)
    (hh : 0 ≤ height) (hlen : (image.length : Int) = width * height) :
    (flipImageVertical true image width height).length = image.length ∧
      (∀ y x : Nat, (y : Int) < height → (x : Int) < width →
        (flipImageVertical true image width height).getD ((y : Int) * width + x).toNat 0 =
          image.getD ((height - 1 - y) * width + x).toNat 0) ∧
      (height % 2 = 1 → ∀ x : Nat, (x : Int) < width →
        (flipImageVertical true image width height).getD
            (height.tdiv 2 * width + x).toNat 0 =
          image.getD (height.tdiv 2 * width + x).toNat 0) := by
  obtain ⟨w, rfl⟩ : ∃ w : Nat, width = (w : Int) := ⟨width.toNat, by omega⟩
  obtain ⟨h, rfl⟩ : ∃ h : Nat, height = (h : Int) := ⟨height.toNat, by omega⟩
  have hlen2 : image.length = w * h := by exact_mod_cast hlen
  refine ⟨flip_length _ _ _ _, ?_, ?_⟩
  · intro y x hy hx
    have hy2 : y < h := by omega
    have hx2 : x < w := by omega
    rw [toNat_cell, toNat_mirror_cell y w h x hy2]
    exact flip_getD w h image hlen2 y x hy2 hx2
  · intro hodd x hx
    have hx2 : x < w := by omega
    have hhalf : (h : Int).tdiv 2 = ((h / 2 : Nat) : Int) := by
      rw [show (2 : Int) = ((2 : Nat) : Int) from rfl, ← Int.ofNat_tdiv]
    rw [hhalf, toNat_cell, flip_getD w h image hlen2 (h / 2) x (by omega) hx2]
    have : h - 1 - h / 2 = h / 2 := by omega
    rw [this]

theorem flipImageVertical_spec_witness :
    (1 : Int) ≤ 2 ∧ (0 : Int) ≤ 3 ∧
      (flipImageVertical true [1, 2, 3, 4, 5, 6] 2 3).length =
        ([1, 2, 3, 4, 5, 6] : List Nat).length ∧
      (∀ y x : Nat, (y : Int) < 3 → (x : Int) < 2 →
        (flipImageVertical true [1, 2, 3, 4, 5, 6] 2 3).getD ((y : Int) * 2 + x).toNat 0 =
          ([1, 2, 3, 4, 5, 6] : List Nat).getD (((3 : Int) - 1 - y) * 2 + x).toNat 0) :=
  ⟨by decide, by decide,
    (flipImageVertical_spec [1, 2, 3, 4, 5, 6] 2 3 (by decide) (by decide) (by decide)).1,
    (flipImageVertical_spec [1, 2, 3, 4, 5, 6] 2 3 (by decide) (by decide) (by decide)).2.1⟩

/-- C3: for every frame of 160x120 bytes, applying `flipImageVertical` twice, the row buffer
obtained both times, gives the frame back byte for byte. -/
theorem flipImageVertical_twice (image : List Nat) (hlen : image.length = 160 * 120) :
    flipImageVertical true (flipImageVertical true image 160 120) 160 120 = image := by
  have := flip_flip 160 120 (by decide) image hlen
  simpa using this

theorem flipImageVertical_twice_witness :
    (List.replicate 19200 7).length = 160 * 120 ∧
      flipImageVertical true (flipImageVertical true (List.replicate 19200 7) 160 120) 160 120 =
        List.replicate 19200 7 :=
  ⟨List.length_replicate _ _, flipImageVertical_twice _ (List.length_replicate _ _)⟩

/-! ## Paths of the frame cycle -/

theorem cameraFault_quiet (s : State) (now : Nat) (hasFb reinitOk : Bool)
    (h : (s.cameraErrors + 1) % 256 ≤ 5 ∨ s.errorRecoveryMode = true) :
    cameraFault s now hasFb reinitOk =
      (CycleExit.fallthrough
          { s with cameraErrors := (s.cameraErrors + 1) % 256, lastErrorTime := now },
        if hasFb then [Event.fbReturn] else []) := by
  unfold cameraFault
  rcases h with h | h
  · simp [Nat.not_lt.2 h]
  · simp [h]

theorem cameraFault_reinit_ok (s : State) (now : Nat) (hasFb : Bool)
    (h1 : 5 < (s.cameraErrors + 1) % 256) (h2 : s.errorRecoveryMode = false) :
    cameraFault s now hasFb true =
      (CycleExit.fallthrough
          { s with cameraErrors := 0, lastErrorTime := now, errorRecoveryMode := true },
        [Event.displayError ErrorMsg.kameraFehler ((s.cameraErrors + 1) % 256),
          Event.reinitializeCamera, Event.screenCameraOk] ++
          (if hasFb then [Event.fbReturn] else [])) := by
  unfold cameraFault
  simp [h1, h2, reinitializeCamera]

theorem cameraFault_reinit_fail (s : State) (now : Nat) (hasFb : Bool)
    (h1 : 5 < (s.cameraErrors + 1) % 256) (h2 : s.errorRecoveryMode = false) :
    cameraFault s now hasFb false =
      (CycleExit.restarted,
        [Event.displayError ErrorMsg.kameraFehler ((s.cameraErrors + 1) % 256),
          Event.reinitializeCamera,
          Event.displayError ErrorMsg.kameraInit ((s.cameraErrors + 1) % 256),
          Event.restart]) := by
  unfold cameraFault
  simp [h1, h2, reinitializeCamera]

theorem frameCycle_faulty (s : State) (inp : TickInput) (h : faulty inp = true) :
    frameCycle s inp =
      ((cameraFault { s with lastFrameTime := inp.now } inp.now inp.fb.isSome inp.reinitOk).1,
        Event.fbGet ::
          (cameraFault { s with lastFrameTime := inp.now } inp.now inp.fb.isSome
            inp.reinitOk).2) := by
  unfold frameCycle
  unfold faulty at h
  cases hfb : inp.fb with
  | none => simp
  | some fb =>
    rw [hfb] at h
    have hok : fbOk fb = false := by simpa using h
    simp [hok]

theorem frameCycle_valid (s : State) (inp : TickInput) (fb : CameraFb) (hfb : inp.fb = some fb)
    (hok : fbOk fb = true) :
    frameCycle s inp =
      ((frameSuccess { s with lastFrameTime := inp.now } inp fb).1,
        Event.fbGet :: (frameSuccess { s with lastFrameTime := inp.now } inp fb).2) := by
  unfold frameCycle
  simp [hfb, hok]

theorem frameSuccess_noBuffer_fail (s : State) (inp : TickInput) (fb : CameraFb)
    (hd : s.displayBuffer = none) (hr : inp.reallocOk = false) :
    frameSuccess s inp fb =
      (CycleExit.restarted,
        [Event.displayError ErrorMsg.bufferNull ((s.bufferErrors + 1) % 256),
          Event.displayError ErrorMsg.bufferAlloc ((s.bufferErrors + 1) % 256),
          Event.restart]) := by
  unfold frameSuccess
  simp [hd, hr, reallocateBuffer]

theorem frameSuccess_noBuffer_ok (s : State) (inp : TickInput) (fb : CameraFb)
    (hd : s.displayBuffer = none) (hr : inp.reallocOk = true) :
    frameSuccess s inp fb =
      (CycleExit.returned
          { s with bufferErrors := (s.bufferErrors + 1) % 256,
                   displayBuffer := some freshDisplayBuffer },
        [Event.displayError ErrorMsg.bufferNull ((s.bufferErrors + 1) % 256),
          Event.fbReturn]) := by
  unfold frameSuccess
  simp [hd, hr, reallocateBuffer]

theorem frameSuccess_report (s : State) (inp : TickInput) (fb : CameraFb) (disp : List Nat)
    (hd : s.displayBuffer = some disp) (h : 5000 ≤ usub inp.now s.lastFPSUpdate) :
    frameSuccess s inp fb =
      (CycleExit.fallthrough
          { s with
            displayBuffer := some (convertGrayscaleToRGB565
              (flipImageVertical inp.tempRowOk fb.buf 160 120) disp 160 120)
            frameCounter := (s.frameCounter + 1) % 256
            fpsCounter := 0
            currentFPS := (s.fpsCounter + 1) % 256
            lastFPSUpdate := inp.now
            cameraErrors := 0
            errorRecoveryMode := false },
        [Event.drawRGBBitmap, Event.printFPS ((s.fpsCounter + 1) % 256), Event.fbReturn]) := by
  unfold frameSuccess
  simp [hd, h]

theorem frameSuccess_plain (s : State) (inp : TickInput) (fb : CameraFb) (disp : List Nat)
    (hd : s.displayBuffer = some disp) (h : usub inp.now s.lastFPSUpdate < 5000) :
    frameSuccess s inp fb =
      (CycleExit.fallthrough
          { s with
            displayBuffer := some (convertGrayscaleToRGB565
              (flipImageVertical inp.tempRowOk fb.buf 160 120) disp 160 120)
            frameCounter := (s.frameCounter + 1) % 256
            fpsCounter := (s.fpsCounter + 1) % 256
            cameraErrors := 0
            errorRecoveryMode := false },
        [Event.drawRGBBitmap, Event.fbReturn]) := by
  unfold frameSuccess
  simp [hd, Nat.not_le.2 h]

/-! ## Frame resource -/

/-- C4 (amended): in every frame cycle in which `esp_camera_fb_get` returns a frame, the
frame is acquired once, and `esp_camera_fb_return` is called exactly once when the cycle does
not end in `ESP.restart()` (success, format or size mismatch, buffer recovered) and not at
all when it ends in `ESP.restart()` (reinitialisation failed, reallocation failed). -/
theorem frameCycle_fbReturn (s : State) (inp : TickInput) (fb : CameraFb)
    (hfb : inp.fb = some fb) :
    (frameCycle s inp).2.count Event.fbGet = 1 ∧
      (frameCycle s inp).2.count Event.fbReturn =
        (if (frameCycle s inp).1.isRestarted then 0 else 1) ∧
      ((frameCycle s inp).1.isRestarted = true ↔ Event.restart ∈ (frameCycle s inp).2) := by
  by_cases hok : fbOk fb = true
  · rw [frameCycle_valid s inp fb hfb hok]
    generalize ({ s with lastFrameTime := inp.now } : State) = s1
    cases hd : s1.displayBuffer with
    | none =>
      cases hr : inp.reallocOk with
      | false =>
        rw [frameSuccess_noBuffer_fail _ inp fb hd hr]
        simp [CycleExit.isRestarted]
      | true =>
        rw [frameSuccess_noBuffer_ok _ inp fb hd hr]
        simp [CycleExit.isRestarted]
    | some disp =>
      by_cases h : 5000 ≤ usub inp.now s1.lastFPSUpdate
      · rw [frameSuccess_report _ inp fb disp hd h]
        simp [CycleExit.isRestarted]
      · rw [frameSuccess_plain _ inp fb disp hd (Nat.not_le.1 h)]
        simp [CycleExit.isRestarted]
  · have hf : faulty inp = true := by simp [faulty, hfb, hok]
    rw [frameCycle_faulty s inp hf, hfb]
    generalize ({ s with lastFrameTime := inp.now } : State) = s1
    by_cases hq : (s1.cameraErrors + 1) % 256 ≤ 5 ∨ s1.errorRecoveryMode = true
    · rw [cameraFault_quiet _ _ _ _ hq]
      simp [CycleExit.isRestarted]
    · have h1 : 5 < (s1.cameraErrors + 1) % 256 := by omega
      have h2 : s1.errorRecoveryMode = false := by
        cases h : s1.errorRecoveryMode with
        | false => rfl
        | true => exact absurd (Or.inr h) hq
      cases hr : inp.reinitOk with
      | false =>
        rw [cameraFault_reinit_fail _ _ _ h1 h2]
        simp [CycleExit.isRestarted]
      | true =>
        rw [cameraFault_reinit_ok _ _ _ h1 h2]
        simp [CycleExit.isRestarted]

theorem frameCycle_fbReturn_witness :
    (tickFrame 700 wrongFormatFrame true).fb = some wrongFormatFrame ∧
      (frameCycle bootState (tickFrame 700 wrongFormatFrame true)).2.count Event.fbReturn =
        (if (frameCycle bootState (tickFrame 700 wrongFormatFrame true)).1.isRestarted
          then 0 else 1) :=
  ⟨rfl, (frameCycle_fbReturn bootState (tickFrame 700 wrongFormatFrame true) wrongFormatFrame
    rfl).2.1⟩

/-- C4 as stated fails: after a press, five cycles with a frame of the wrong format are
followed by a sixth in which `esp_camera_init` fails; six frames were acquired and only five
returned, the sixth cycle ending in `ESP.restart()` with its frame not returned. -/
theorem fbReturn_missing_on_restart :
    (run bootState [tickHigh 0, tickLow 100, tickFrame 200 wrongFormatFrame true,
        tickFrame 300 wrongFormatFrame true, tickFrame 400 wrongFormatFrame true,
        tickFrame 500 wrongFormatFrame true, tickFrame 600 wrongFormatFrame true,
        tickFrame 700 wrongFormatFrame false]).2 =
      [Event.screenActive,
        Event.fbGet, Event.fbReturn, Event.fbGet, Event.fbReturn, Event.fbGet, Event.fbReturn,
        Event.fbGet, Event.fbReturn, Event.fbGet, Event.fbReturn,
        Event.fbGet, Event.displayError ErrorMsg.kameraFehler 6, Event.reinitializeCamera,
        Event.displayError ErrorMsg.kameraInit 6, Event.restart] := by
  decide

/-! ## Fault monitor -/

theorem runCycles_cons (s : State) (inp : TickInput) (rest : List TickInput) :
    runCycles s (inp :: rest) =
      match (frameCycle s inp).1.state? with
      | none => (Outcome.restarted, (frameCycle s inp).2)
      | some s1 => ((runCycles s1 rest).1, (frameCycle s inp).2 ++ (runCycles s1 rest).2) := by
  rw [runCycles]
  rcases hfc : frameCycle s inp with ⟨e, ev⟩
  cases e <;> simp [CycleExit.state?]

theorem runCycles_append_running (s s1 : State) (a b : List TickInput)
    (h : (runCycles s a).1 = Outcome.running s1) :
    runCycles s (a ++ b) = ((runCycles s1 b).1, (runCycles s a).2 ++ (runCycles s1 b).2) := by
  induction a generalizing s with
  | nil =>
    simp only [runCycles] at h
    cases h
    simp [runCycles]
  | cons i rest ih =>
    rw [List.cons_append, runCycles_cons]
    rw [runCycles_cons] at h ⊢
    cases hst : (frameCycle s i).1.state? with
    | none => rw [hst] at h; cases h
    | some s2 =>
      rw [hst] at h
      simp only at h ⊢
      rw [ih s2 h, List.append_assoc]

theorem runCycles_append_restarted (s : State) (a b : List TickInput)
    (h : (runCycles s a).1 = Outcome.restarted) :
    runCycles s (a ++ b) = (Outcome.restarted, (runCycles s a).2) := by
  induction a generalizing s with
  | nil => simp only [runCycles] at h; cases h
  | cons i rest ih =>
    rw [List.cons_append, runCycles_cons]
    rw [runCycles_cons] at h ⊢
    cases hst : (frameCycle s i).1.state? with
    | none => rfl
    | some s2 =>
      rw [hst] at h
      simp only at h ⊢
      rw [ih s2 h]

/-- Below the threshold, with the recovery flag clear, faulty cycles only count. -/
theorem runCycles_below (ins : List TickInput) (s : State)
    (hf : ∀ i ∈ ins, faulty i = true) (h1 : s.errorRecoveryMode = false)
    (h2 : s.cameraErrors + ins.length ≤ 5) :
    (runCycles s ins).2.count Event.reinitializeCamera = 0 ∧
      ∃ s1, (runCycles s ins).1 = Outcome.running s1 ∧
        s1.cameraErrors = s.cameraErrors + ins.length ∧ s1.errorRecoveryMode = false := by
  induction ins generalizing s with
  | nil => exact ⟨rfl, s, rfl, rfl, h1⟩
  | cons i rest ih =>
    have hfi : faulty i = true := hf i (List.mem_cons_self _ _)
    have hlen : s.cameraErrors + 1 + rest.length ≤ 5 := by
      simp only [List.length_cons] at h2; omega
    have hmod : (s.cameraErrors + 1) % 256 = s.cameraErrors + 1 :=
      Nat.mod_eq_of_lt (by omega)
    rw [runCycles_cons, frameCycle_faulty s i hfi,
      cameraFault_quiet _ _ _ _ (Or.inl (by show (s.cameraErrors + 1) % 256 ≤ 5; omega))]
    simp only [CycleExit.state?]
    obtain ⟨hc, s1, hs1, hce, hre⟩ := ih
      { s with lastFrameTime := i.now, cameraErrors := (s.cameraErrors + 1) % 256,
               lastErrorTime := i.now }
      (fun j hj => hf j (List.mem_cons_of_mem _ hj)) h1
      (by show (s.cameraErrors + 1) % 256 + rest.length ≤ 5; omega)
    refine ⟨?_, s1, hs1, ?_, hre⟩
    · rw [List.cons_append, List.count_cons_of_ne (by decide), List.count_append, hc]
      cases i.fb.isSome <;> simp
    · rw [hce]
      show (s.cameraErrors + 1) % 256 + rest.length = s.cameraErrors + (rest.length + 1)
      omega

/-- While the recovery flag is set, faulty cycles attempt no reinitialisation and keep it
set. -/
theorem runCycles_locked (ins : List TickInput) (s : State)
    (hf : ∀ i ∈ ins, faulty i = true) (h1 : s.errorRecoveryMode = true) :
    (runCycles s ins).2.count Event.reinitializeCamera = 0 ∧
      ∃ s1, (runCycles s ins).1 = Outcome.running s1 ∧ s1.errorRecoveryMode = true ∧
        s1.displayBuffer = s.displayBuffer := by
  induction ins generalizing s with
  | nil => exact ⟨rfl, s, rfl, h1, rfl⟩
  | cons i rest ih =>
    have hfi : faulty i = true := hf i (List.mem_cons_self _ _)
    rw [runCycles_cons, frameCycle_faulty s i hfi, cameraFault_quiet _ _ _ _ (Or.inr (by exact h1))]
    simp only [CycleExit.state?]
    obtain ⟨hc, s1, hs1, hre, hdb⟩ := ih
      { s with lastFrameTime := i.now, cameraErrors := (s.cameraErrors + 1) % 256,
               lastErrorTime := i.now }
      (fun j hj => hf j (List.mem_cons_of_mem _ hj)) h1
    refine ⟨?_, s1, hs1, hre, hdb⟩
    rw [List.cons_append, List.count_cons_of_ne (by decide), List.count_append, hc]
    cases i.fb.isSome <;> simp

/-- The cycle that breaches the threshold: one reinitialisation attempt; when it fails the
cycle ends in `ESP.restart()`, when it succeeds the counter is 0 and the flag stays set. -/
theorem frameCycle_breach (s : State) (inp : TickInput) (hf : faulty inp = true)
    (h1 : 5 < (s.cameraErrors + 1) % 256) (h2 : s.errorRecoveryMode = false) :
    (frameCycle s inp).2.count Event.reinitializeCamera = 1 ∧
      (inp.reinitOk = false → (frameCycle s inp).1 = CycleExit.restarted) ∧
      (inp.reinitOk = true → ∃ s1, (frameCycle s inp).1 = CycleExit.fallthrough s1 ∧
        s1.cameraErrors = 0 ∧ s1.errorRecoveryMode = true ∧
        s1.displayBuffer = s.displayBuffer) := by
  rw [frameCycle_faulty s inp hf]
  cases hr : inp.reinitOk with
  | false =>
    rw [cameraFault_reinit_fail _ _ _ (by exact h1) (by exact h2)]
    simp
  | true =>
    rw [cameraFault_reinit_ok _ _ _ (by exact h1) (by exact h2)]
    refine ⟨?_, by simp, fun _ => ⟨_, rfl, rfl, rfl, rfl⟩⟩
    cases inp.fb.isSome <;> simp

theorem runCycles_single (s : State) (x : TickInput) :
    (runCycles s [x]).2 = (frameCycle s x).2 ∧
      ((frameCycle s x).1 = CycleExit.restarted → (runCycles s [x]).1 = Outcome.restarted) := by
  rw [runCycles_cons]
  cases hst : (frameCycle s x).1.state? with
  | none => exact ⟨rfl, fun _ => rfl⟩
  | some s1 =>
    refine ⟨by simp [runCycles], fun h => ?_⟩
    rw [h] at hst
    cases hst

theorem frameCycle_reinit_mem (s : State) (inp : TickInput)
    (h : Event.reinitializeCamera ∈ (frameCycle s inp).2) :
    faulty inp = true ∧ 5 < (s.cameraErrors + 1) % 256 ∧ s.errorRecoveryMode = false := by
  cases hfl : faulty inp with
  | false =>
    exfalso
    unfold faulty at hfl
    cases hfb : inp.fb with
    | none => rw [hfb] at hfl; cases hfl
    | some fb =>
      rw [hfb] at hfl
      have hok : fbOk fb = true := by simpa using hfl
      rw [frameCycle_valid s inp fb hfb hok] at h
      generalize ({ s with lastFrameTime := inp.now } : State) = s1 at h
      cases hd : s1.displayBuffer with
      | none =>
        cases hr : inp.reallocOk with
        | false => rw [frameSuccess_noBuffer_fail _ inp fb hd hr] at h; simp at h
        | true => rw [frameSuccess_noBuffer_ok _ inp fb hd hr] at h; simp at h
      | some disp =>
        by_cases hrep : 5000 ≤ usub inp.now s1.lastFPSUpdate
        · rw [frameSuccess_report _ inp fb disp hd hrep] at h; simp at h
        · rw [frameSuccess_plain _ inp fb disp hd (Nat.not_le.1 hrep)] at h; simp at h
  | true =>
    refine ⟨rfl, ?_⟩
    by_cases hq : (s.cameraErrors + 1) % 256 ≤ 5 ∨ s.errorRecoveryMode = true
    · exfalso
      rw [frameCycle_faulty s inp hfl, cameraFault_quiet _ _ _ _ (by exact hq)] at h
      cases hx : inp.fb.isSome <;> rw [hx] at h <;> simp at h
    · refine ⟨by omega, ?_⟩
      cases hrm : s.errorRecoveryMode with
      | false => rfl
      | true => exact absurd (Or.inr hrm) hq

theorem frameCycle_success_clears (s : State) (inp : TickInput) (fb : CameraFb)
    (hfb : inp.fb = some fb) (hok : fbOk fb = true) (hd : s.displayBuffer ≠ none) :
    ∃ s2, (frameCycle s inp).1 = CycleExit.fallthrough s2 ∧ s2.cameraErrors = 0 ∧
      s2.errorRecoveryMode = false := by
  rw [frameCycle_valid s inp fb hfb hok]
  obtain ⟨disp, hdb⟩ : ∃ d, s.displayBuffer = some d := by
    cases h : s.displayBuffer with
    | none => exact absurd h hd
    | some d => exact ⟨d, rfl⟩
  by_cases hrep : 5000 ≤ usub inp.now s.lastFPSUpdate
  · rw [frameSuccess_report _ inp fb disp (by exact hdb) (by exact hrep)]
    exact ⟨_, rfl, rfl, rfl⟩
  · rw [frameSuccess_plain _ inp fb disp (by exact hdb) (by exact Nat.not_le.1 hrep)]
    exact ⟨_, rfl, rfl, rfl⟩

/-- C5: from `cameraErrors = 0` and `errorRecoveryMode = false`, a run of at most five
consecutive faulty frame cycles attempts no reinitialisation; a run of six attempts exactly
one, none of it in the first five cycles; and when that attempt fails the run ends in
`ESP.restart()`, whatever cycles are fed after it, with still one attempt in all. -/
theorem reinit_after_six_faults (s : State) (ins : List TickInput) (h0 : s.cameraErrors = 0)
    (h1 : s.errorRecoveryMode = false) (hf : ∀ i ∈ ins, faulty i = true) :
    (ins.length ≤ 5 → (runCycles s ins).2.count Event.reinitializeCamera = 0) ∧
      (ins.length = 6 →
        (runCycles s ins).2.count Event.reinitializeCamera = 1 ∧
        (runCycles s (ins.take 5)).2.count Event.reinitializeCamera = 0 ∧
        ∀ sixth, ins[5]? = some sixth → sixth.reinitOk = false →
          ∀ more, (runCycles s (ins ++ more)).1 = Outcome.restarted ∧
            (runCycles s (ins ++ more)).2.count Event.reinitializeCamera = 1) := by
  constructor
  · intro hlen
    exact (runCycles_below ins s hf h1 (by omega)).1
  · intro hlen
    have hsplit : ins.take 5 ++ ins.drop 5 = ins := List.take_append_drop 5 ins
    obtain ⟨x, hx⟩ : ∃ x, ins.drop 5 = [x] :=
      List.length_eq_one.1 (by rw [List.length_drop, hlen])
    have htl : (ins.take 5).length = 5 := by rw [List.length_take, hlen]; rfl
    obtain ⟨hc, s5, hs5, hce, hre⟩ := runCycles_below (ins.take 5) s
      (fun i hi => hf i (List.mem_of_mem_take hi)) h1 (by omega)
    have hxf : faulty x = true :=
      hf x (by rw [← hsplit, hx]; exact List.mem_append_right _ (List.mem_singleton_self x))
    have hb := frameCycle_breach s5 x hxf (by rw [hce, h0, htl]; decide) hre
    have hrun : runCycles s ins =
        ((runCycles s5 [x]).1, (runCycles s (ins.take 5)).2 ++ (runCycles s5 [x]).2) := by
      rw [← runCycles_append_running s s5 (ins.take 5) [x] hs5, ← hx, hsplit]
    have hcount : (runCycles s ins).2.count Event.reinitializeCamera = 1 := by
      rw [hrun]
      simp only []
      rw [List.count_append, hc, (runCycles_single s5 x).1, hb.1]
    refine ⟨hcount, hc, ?_⟩
    intro sixth hsix hfail more
    have hsx : sixth = x := by
      have : ins[5]? = some x := by
        have h := List.getElem?_drop (L := ins) (i := 5) (j := 0)
        rw [hx] at h
        simpa using h.symm
      rw [this] at hsix
      exact (Option.some.inj hsix).symm
    subst hsx
    have hrst : (runCycles s ins).1 = Outcome.restarted := by
      rw [hrun]
      exact (runCycles_single s5 sixth).2 (hb.2.1 hfail)
    rw [runCycles_append_restarted s ins more hrst]
    exact ⟨rfl, hcount⟩

theorem reinit_after_six_faults_witness :
    (runCycles bootState [tickLow 200, tickLow 300, tickLow 400, tickLow 500, tickLow 600,
        tickLow 700]).2.count Event.reinitializeCamera = 1 :=
  ((reinit_after_six_faults bootState
    [tickLow 200, tickLow 300, tickLow 400, tickLow 500, tickLow 600, tickLow 700] rfl rfl
    (by decide)).2 rfl).1

/-- With the counter at 0 and the recovery flag clear, six consecutive faulty cycles make
exactly one reinitialisation attempt. -/
theorem runCycles_six (s : State) (ins : List TickInput) (h0 : s.cameraErrors = 0)
    (h1 : s.errorRecoveryMode = false) (hf : ∀ i ∈ ins, faulty i = true)
    (hlen : ins.length = 6) :
    (runCycles s ins).2.count Event.reinitializeCamera = 1 := by
  have hsplit : ins.take 5 ++ ins.drop 5 = ins := List.take_append_drop 5 ins
  obtain ⟨x, hx⟩ : ∃ x, ins.drop 5 = [x] :=
    List.length_eq_one.1 (by rw [List.length_drop, hlen])
  have htl : (ins.take 5).length = 5 := by rw [List.length_take, hlen]; rfl
  obtain ⟨hc, s5, hs5, hce, hre⟩ := runCycles_below (ins.take 5) s
    (fun i hi => hf i (List.mem_of_mem_take hi)) h1 (by omega)
  have hxf : faulty x = true :=
    hf x (by rw [← hsplit, hx]; exact List.mem_append_right _ (List.mem_singleton_self x))
  have hb := frameCycle_breach s5 x hxf (by rw [hce, h0, htl]; decide) hre
  rw [← hsplit, hx, runCycles_append_running s s5 (ins.take 5) [x] hs5]
  simp only []
  rw [List.count_append, hc, (runCycles_single s5 x).1, hb.1]

/-- C6 (amended): whenever a fault cycle triggers camera reinitialisation and
`reinitializeCamera` succeeds, the cycle ends with `cameraErrors = 0` and with
`errorRecoveryMode` still set.  Any number of further faulty cycles attempt no
reinitialisation and leave the flag set; the next successful frame cycle, whether it comes
at once or after such faulty cycles, ends with the flag cleared and `cameraErrors = 0`; and
from there six consecutive faulty cycles trigger a reinitialisation again. -/
theorem reinit_success_state (s : State) (inp : TickInput)
    (htrig : Event.reinitializeCamera ∈ (frameCycle s inp).2) (hok : inp.reinitOk = true) :
    ∃ s1, (frameCycle s inp).1 = CycleExit.fallthrough s1 ∧ s1.cameraErrors = 0 ∧
      s1.errorRecoveryMode = true ∧
      ∀ ins, (∀ i ∈ ins, faulty i = true) →
        (runCycles s1 ins).2.count Event.reinitializeCamera = 0 ∧
        ∃ s2, (runCycles s1 ins).1 = Outcome.running s2 ∧ s2.errorRecoveryMode = true ∧
          ∀ inp2 fb, inp2.fb = some fb → fbOk fb = true → s1.displayBuffer ≠ none →
            ∃ s3, (frameCycle s2 inp2).1 = CycleExit.fallthrough s3 ∧ s3.cameraErrors = 0 ∧
              s3.errorRecoveryMode = false ∧
              ∀ ins2, (∀ i ∈ ins2, faulty i = true) → ins2.length = 6 →
                (runCycles s3 ins2).2.count Event.reinitializeCamera = 1 := by
  obtain ⟨hfl, hc, hre⟩ := frameCycle_reinit_mem s inp htrig
  obtain ⟨s1, hs1, hce, hrm, _⟩ := (frameCycle_breach s inp hfl hc hre).2.2 hok
  refine ⟨s1, hs1, hce, hrm, ?_⟩
  intro ins hins
  obtain ⟨hcount, s2, hs2, hrm2, hdb2⟩ := runCycles_locked ins s1 hins hrm
  refine ⟨hcount, s2, hs2, hrm2, ?_⟩
  intro inp2 fb hfb hfbok hd
  obtain ⟨s3, hs3, hce3, hrm3⟩ :=
    frameCycle_success_clears s2 inp2 fb hfb hfbok (by rw [hdb2]; exact hd)
  exact ⟨s3, hs3, hce3, hrm3, fun ins2 hf2 hlen2 => runCycles_six s3 ins2 hce3 hrm3 hf2 hlen2⟩

theorem reinit_success_state_witness :
    Event.reinitializeCamera ∈
        (frameCycle { bootState with cameraErrors := 5 } (tickLow 700)).2 ∧
      ∃ s1, (frameCycle { bootState with cameraErrors := 5 } (tickLow 700)).1 =
          CycleExit.fallthrough s1 ∧ s1.cameraErrors = 0 ∧ s1.errorRecoveryMode = true ∧
        ∃ s2, (runCycles s1 [tickLow 800, tickLow 900]).1 = Outcome.running s2 ∧
          s2.errorRecoveryMode = true ∧
          ∃ s3, (frameCycle s2 (tickFrame 1000 goodFrame true)).1 =
              CycleExit.fallthrough s3 ∧ s3.cameraErrors = 0 ∧
            s3.errorRecoveryMode = false :=
  ⟨by decide,
    let ⟨s1, h1, h2, h3, h4⟩ :=
      reinit_success_state { bootState with cameraErrors := 5 } (tickLow 700) (by decide) rfl
    let ⟨_, s2, k1, k2, k3⟩ := h4 [tickLow 800, tickLow 900] (by decide)
    let ⟨s3, m1, m2, m3, _⟩ := k3 (tickFrame 1000 goodFrame true) goodFrame rfl rfl
      (by
        have hd : ({ bootState with cameraErrors := 5 } : State).displayBuffer ≠ none := by
          simp [bootState]
        have hb := (frameCycle_breach { bootState with cameraErrors := 5 } (tickLow 700)
          (by decide) (by decide) rfl).2.2 rfl
        obtain ⟨t1, e1, _, _, e4⟩ := hb
        rw [h1] at e1
        cases e1
        rw [e4]
        exact hd)
    ⟨s1, h1, h2, h3, s2, k1, k2, s3, m1, m2, m3⟩⟩

/-- C6 as stated fails: after a press and six cycles without a frame, the sixth of which
reinitialises the camera with success, `cameraErrors` is 0 and `errorRecoveryMode` is still
set at the end of the cycle. -/
theorem recovery_flag_stays_set :
    ((run bootState [tickHigh 0, tickLow 100, tickLow 200, tickLow 300, tickLow 400,
        tickLow 500, tickLow 600, tickLow 700]).1.state?.map
          fun s => (s.cameraErrors, s.errorRecoveryMode)) = some (0, true) ∧
      (run bootState [tickHigh 0, tickLow 100, tickLow 200, tickLow 300, tickLow 400,
        tickLow 500, tickLow 600, tickLow 700]).2 =
        [Event.screenActive, Event.fbGet, Event.fbGet, Event.fbGet, Event.fbGet, Event.fbGet,
          Event.fbGet, Event.displayError ErrorMsg.kameraFehler 6, Event.reinitializeCamera,
          Event.screenCameraOk] := by
  decide

/-! ## What a frame cycle leaves alone -/

theorem frameCycle_frame (s : State) (inp : TickInput) (s1 : State)
    (h : (frameCycle s inp).1.state? = some s1) :
    s1.lastActivation = s.lastActivation ∧ s1.isActive = s.isActive ∧
      s1.systemReady = s.systemReady ∧ s1.buttonPressed = s.buttonPressed ∧
      s1.lastButtonState = s.lastButtonState ∧ s1.lastFrameTime = inp.now ∧
      (s.displayBuffer ≠ none → s1.displayBuffer ≠ none) ∧
      (s.displayBuffer ≠ none → (frameCycle s inp).1 = CycleExit.fallthrough s1) := by
  cases hfl : faulty inp with
  | false =>
    unfold faulty at hfl
    cases hfb : inp.fb with
    | none => rw [hfb] at hfl; cases hfl
    | some fb =>
      rw [hfb] at hfl
      have hok : fbOk fb = true := by simpa using hfl
      rw [frameCycle_valid s inp fb hfb hok] at h ⊢
      by_cases hd : s.displayBuffer = none
      · cases hr : inp.reallocOk with
        | false =>
          rw [frameSuccess_noBuffer_fail _ inp fb (by exact hd) hr] at h ⊢
          cases h
        | true =>
          rw [frameSuccess_noBuffer_ok _ inp fb (by exact hd) hr] at h ⊢
          cases h
          simp [hd]
      · obtain ⟨disp, hdb⟩ : ∃ d, s.displayBuffer = some d := by
          cases hx : s.displayBuffer with
          | none => exact absurd hx hd
          | some d => exact ⟨d, rfl⟩
        by_cases hrep : 5000 ≤ usub inp.now s.lastFPSUpdate
        · rw [frameSuccess_report _ inp fb disp (by exact hdb) (by exact hrep)] at h ⊢
          cases h
          simp
        · rw [frameSuccess_plain _ inp fb disp (by exact hdb)
            (by exact Nat.not_le.1 hrep)] at h ⊢
          cases h
          simp
  | true =>
    rw [frameCycle_faulty s inp hfl] at h ⊢
    by_cases hq : (s.cameraErrors + 1) % 256 ≤ 5 ∨ s.errorRecoveryMode = true
    · rw [cameraFault_quiet _ _ _ _ (by exact hq)] at h ⊢
      cases h
      simp
    · have h1 : 5 < (s.cameraErrors + 1) % 256 := by omega
      have h2 : s.errorRecoveryMode = false := by
        cases hrm : s.errorRecoveryMode with
        | false => rfl
        | true => exact absurd (Or.inr hrm) hq
      cases hr : inp.reinitOk with
      | false =>
        rw [hr] at h
        rw [cameraFault_reinit_fail _ _ _ (by exact h1) (by exact h2)] at h ⊢
        cases h
      | true =>
        rw [hr] at h
        rw [cameraFault_reinit_ok _ _ _ (by exact h1) (by exact h2)] at h ⊢
        cases h
        simp


/-! ## One pass of the loop -/

theorem buttonStep_press (s : State) (inp : TickInput) (h : pressRecognised s inp = true) :
    (buttonStep s inp.now inp.button).1.isActive = true ∧
      (buttonStep s inp.now inp.button).1.lastActivation = inp.now ∧
      (buttonStep s inp.now inp.button).1.buttonPressed = false ∧
      (buttonStep s inp.now inp.button).1.lastButtonState = inp.button ∧
      (buttonStep s inp.now inp.button).1.systemReady = s.systemReady ∧
      (buttonStep s inp.now inp.button).1.displayBuffer = s.displayBuffer ∧
      (buttonStep s inp.now inp.button).1.fpsCounter = s.fpsCounter ∧
      (buttonStep s inp.now inp.button).1.lastFPSUpdate = s.lastFPSUpdate ∧
      (s.isActive = false → (buttonStep s inp.now inp.button).1.frameCounter = 0 ∧
        (buttonStep s inp.now inp.button).1.lastFrameTime = inp.now ∧
        (buttonStep s inp.now inp.button).2 = [Event.screenActive]) ∧
      (s.isActive = true →
        (buttonStep s inp.now inp.button).1.frameCounter = s.frameCounter ∧
        (buttonStep s inp.now inp.button).1.lastFrameTime = s.lastFrameTime ∧
        (buttonStep s inp.now inp.button).2 = []) := by
  unfold pressRecognised at h
  have hb : inp.button = false := by
    cases hx : inp.button with
    | false => rfl
    | true => rw [hx] at h; cases h
  have hl : s.lastButtonState = true := by
    rw [hb] at h
    simpa using h
  unfold buttonStep
  cases ha : s.isActive <;> simp [hb, hl, ha]

theorem buttonStep_idle (s : State) (inp : TickInput) (h : pressRecognised s inp = false)
    (hbp : s.buttonPressed = false) :
    buttonStep s inp.now inp.button = ({ s with lastButtonState := inp.button }, []) := by
  unfold pressRecognised at h
  unfold buttonStep
  cases hb : inp.button with
  | true => simp [hbp]
  | false =>
    have hl : s.lastButtonState = false := by
      rw [hb] at h
      simpa using h
    simp [hl, hbp]

theorem timeoutCheck_fields (s : State) (now : Nat) :
    (timeoutCheck s now).1.lastActivation = s.lastActivation ∧
      (timeoutCheck s now).1.systemReady = s.systemReady ∧
      (timeoutCheck s now).1.buttonPressed = s.buttonPressed ∧
      (timeoutCheck s now).1.lastButtonState = s.lastButtonState ∧
      (timeoutCheck s now).1.displayBuffer = s.displayBuffer ∧
      (timeoutCheck s now).1.fpsCounter = s.fpsCounter ∧
      (timeoutCheck s now).1.lastFPSUpdate = s.lastFPSUpdate ∧
      (timeoutCheck s now).1.lastFrameTime = s.lastFrameTime ∧
      (usub now s.lastActivation ≤ ACTIVE_TIME → timeoutCheck s now = (s, [])) ∧
      (ACTIVE_TIME < usub now s.lastActivation →
        (timeoutCheck s now).1.isActive = false ∧
        (timeoutCheck s now).2 = [Event.screenStandby]) := by
  unfold timeoutCheck
  by_cases h : ACTIVE_TIME < usub now s.lastActivation
  · simp [h]
  · simp [h, Nat.not_lt.1 h]

theorem activeStep_skip (s : State) (inp : TickInput) (h : usub inp.now s.lastFrameTime < 50) :
    activeStep s inp =
      (Outcome.running (timeoutCheck s inp.now).1, (timeoutCheck s inp.now).2) := by
  unfold activeStep
  rw [if_neg (by omega)]

theorem activeStep_restarted (s : State) (inp : TickInput)
    (h : 50 ≤ usub inp.now s.lastFrameTime)
    (he : (frameCycle s inp).1 = CycleExit.restarted) :
    activeStep s inp = (Outcome.restarted, (frameCycle s inp).2) := by
  unfold activeStep
  rw [if_pos h]
  rcases hfc : frameCycle s inp with ⟨e, ev⟩
  rw [hfc] at he
  simp only at he
  subst he
  rfl

theorem activeStep_returned (s : State) (inp : TickInput) (s2 : State)
    (h : 50 ≤ usub inp.now s.lastFrameTime)
    (he : (frameCycle s inp).1 = CycleExit.returned s2) :
    activeStep s inp = (Outcome.running s2, (frameCycle s inp).2) := by
  unfold activeStep
  rw [if_pos h]
  rcases hfc : frameCycle s inp with ⟨e, ev⟩
  rw [hfc] at he
  simp only at he
  subst he
  rfl

theorem activeStep_fallthrough (s : State) (inp : TickInput) (s2 : State)
    (h : 50 ≤ usub inp.now s.lastFrameTime)
    (he : (frameCycle s inp).1 = CycleExit.fallthrough s2) :
    activeStep s inp =
      (Outcome.running (timeoutCheck s2 inp.now).1,
        (frameCycle s inp).2 ++ (timeoutCheck s2 inp.now).2) := by
  unfold activeStep
  rw [if_pos h]
  rcases hfc : frameCycle s inp with ⟨e, ev⟩
  rw [hfc] at he
  simp only at he
  subst he
  rfl

theorem loop_standby (s : State) (inp : TickInput) (hr : s.systemReady = true)
    (ha : (buttonStep s inp.now inp.button).1.isActive = false) :
    loop s inp =
      (Outcome.running (buttonStep s inp.now inp.button).1,
        (buttonStep s inp.now inp.button).2) := by
  unfold loop
  simp [hr, ha]

theorem loop_active (s : State) (inp : TickInput) (hr : s.systemReady = true)
    (ha : (buttonStep s inp.now inp.button).1.isActive = true) :
    loop s inp =
      ((activeStep (buttonStep s inp.now inp.button).1 inp).1,
        (buttonStep s inp.now inp.button).2 ++
          (activeStep (buttonStep s inp.now inp.button).1 inp).2) := by
  unfold loop
  simp [hr, ha]

theorem usub_self (t : Nat) : usub t t = 0 := by
  unfold usub ULONG_RANGE
  omega

theorem usub_of_le (a b : Nat) (hab : b ≤ a) (ha : a < ULONG_RANGE) : usub a b = a - b := by
  unfold usub
  unfold ULONG_RANGE at *
  omega

theorem state?_eq_some (o : Outcome) (s : State) (h : o.state? = some s) :
    o = Outcome.running s := by
  cases o with
  | running s0 => simp only [Outcome.state?, Option.some.injEq] at h; rw [h]
  | restarted => cases h

theorem exit_cases (e : CycleExit) :
    e = CycleExit.restarted ∨ (∃ s, e = CycleExit.returned s) ∨
      ∃ s, e = CycleExit.fallthrough s := by
  cases e with
  | fallthrough s => exact Or.inr (Or.inr ⟨s, rfl⟩)
  | returned s => exact Or.inr (Or.inl ⟨s, rfl⟩)
  | restarted => exact Or.inl rfl

/-- What the part of `loop()` under `if (isActive)` does to the activation state. -/
theorem activeStep_tick (b : State) (inp : TickInput) (s1 : State)
    (h : (activeStep b inp).1 = Outcome.running s1) :
    s1.systemReady = b.systemReady ∧ s1.buttonPressed = b.buttonPressed ∧
      s1.lastButtonState = b.lastButtonState ∧ s1.lastActivation = b.lastActivation ∧
      (b.displayBuffer ≠ none → s1.displayBuffer ≠ none) ∧
      (usub inp.now b.lastActivation ≤ ACTIVE_TIME → s1.isActive = b.isActive) ∧
      (b.displayBuffer ≠ none → ACTIVE_TIME < usub inp.now b.lastActivation →
        s1.isActive = false) := by
  by_cases hdue : 50 ≤ usub inp.now b.lastFrameTime
  · rcases exit_cases (frameCycle b inp).1 with he | ⟨s2, he⟩ | ⟨s2, he⟩
    · rw [activeStep_restarted b inp hdue he] at h
      cases h
    · rw [activeStep_returned b inp s2 hdue he] at h
      cases h
      obtain ⟨f1, f2, f3, f4, f5, _, f7, f8⟩ :=
        frameCycle_frame b inp s1 (by rw [he]; rfl)
      refine ⟨f3, f4, f5, f1, f7, fun _ => f2, fun hd _ => ?_⟩
      have := f8 hd
      rw [he] at this
      cases this
    · rw [activeStep_fallthrough b inp s2 hdue he] at h
      cases h
      obtain ⟨f1, f2, f3, f4, f5, _, f7, _⟩ :=
        frameCycle_frame b inp s2 (by rw [he]; rfl)
      obtain ⟨t1, t2, t3, t4, t5, _, _, _, t9, t10⟩ := timeoutCheck_fields s2 inp.now
      refine ⟨by rw [t2, f3], by rw [t3, f4], by rw [t4, f5], by rw [t1, f1],
        fun hd => by rw [t5]; exact f7 hd, fun hle => ?_, fun _ hlt => ?_⟩
      · rw [t9 (by rw [f1]; exact hle)]
        exact f2
      · exact (t10 (by rw [f1]; exact hlt)).1
  · rw [activeStep_skip b inp (Nat.not_le.1 hdue)] at h
    cases h
    obtain ⟨t1, t2, t3, t4, t5, _, _, _, t9, t10⟩ := timeoutCheck_fields b inp.now
    refine ⟨t2, t3, t4, t1, fun hd => by rw [t5]; exact hd, fun hle => ?_, fun _ hlt => ?_⟩
    · rw [t9 hle]
    · exact (t10 hlt).1

/-- What one pass of `loop()` does to the button and activation state. -/
theorem loop_tick (s : State) (inp : TickInput) (s1 : State) (hready : s.systemReady = true)
    (hbp : s.buttonPressed = false) (h : (loop s inp).1 = Outcome.running s1) :
    s1.systemReady = true ∧ s1.buttonPressed = false ∧ s1.lastButtonState = inp.button ∧
      s1.lastActivation = (if pressRecognised s inp = true then inp.now else s.lastActivation) ∧
      (s.displayBuffer ≠ none → s1.displayBuffer ≠ none) ∧
      (pressRecognised s inp = true → s1.isActive = true) ∧
      (pressRecognised s inp = false → s.isActive = false → s1.isActive = false) ∧
      (pressRecognised s inp = false → s.isActive = true → s.displayBuffer ≠ none →
        (s1.isActive = true ↔ usub inp.now s.lastActivation ≤ ACTIVE_TIME)) := by
  cases hp : pressRecognised s inp with
  | true =>
    obtain ⟨b1, b2, b3, b4, b5, b6, _, _, _, _⟩ := buttonStep_press s inp hp
    rw [loop_active s inp hready b1] at h
    obtain ⟨a1, a2, a3, a4, a5, a6, _⟩ :=
      activeStep_tick (buttonStep s inp.now inp.button).1 inp s1 h
    refine ⟨by rw [a1, b5, hready], by rw [a2, b3], by rw [a3, b4], by rw [a4, b2]; simp,
      fun hd => a5 (by rw [b6]; exact hd), fun _ => ?_, fun hc => Bool.noConfusion hc,
      fun hc => Bool.noConfusion hc⟩
    rw [a6 (by rw [b2, usub_self]; exact Nat.zero_le _), b1]
  | false =>
    have hb := buttonStep_idle s inp hp hbp
    cases ha : s.isActive with
    | false =>
      rw [loop_standby s inp hready (by rw [hb]; exact ha), hb] at h
      cases h
      exact ⟨hready, hbp, rfl, by simp, fun hd => hd, fun hc => Bool.noConfusion hc,
        fun _ _ => ha, fun _ hc => Bool.noConfusion hc⟩
    | true =>
      rw [loop_active s inp hready (by rw [hb]; exact ha), hb] at h
      obtain ⟨a1, a2, a3, a4, a5, a6, a7⟩ :=
        activeStep_tick { s with lastButtonState := inp.button } inp s1 h
      refine ⟨by rw [a1]; exact hready, by rw [a2]; exact hbp, a3, by rw [a4]; simp, a5,
        fun hc => Bool.noConfusion hc, fun _ hc => Bool.noConfusion hc, fun _ _ hd => ?_⟩
      constructor
      · intro hact
        by_contra hgt
        have := a7 hd (Nat.not_le.1 hgt)
        rw [this] at hact
        cases hact
      · intro hle
        rw [a6 hle]
        exact ha

theorem reachable_inv (s : State) (h : Reachable s) :
    s.systemReady = true ∧ s.buttonPressed = false ∧ s.displayBuffer ≠ none := by
  induction h with
  | boot => exact ⟨rfl, rfl, by simp [bootState]⟩
  | tick s0 s1 inp _ hstep ih =>
    obtain ⟨l1, l2, _, _, l5, _⟩ := loop_tick s0 inp s1 ih.1 ih.2.1 hstep
    exact ⟨l1, l2, l5 ih.2.2⟩

/-! ## Activation timer -/

theorem run_cons (s : State) (inp : TickInput) (rest : List TickInput) :
    run s (inp :: rest) =
      match (loop s inp).1.state? with
      | none => (Outcome.restarted, (loop s inp).2)
      | some s1 => ((run s1 rest).1, (loop s inp).2 ++ (run s1 rest).2) := by
  rw [run]
  rcases hl : loop s inp with ⟨o, ev⟩
  cases o <;> simp [Outcome.state?]

/-- While no press is recognised and the clock stays within `ACTIVE_TIME` of the last
press, a run of ticks that does not restart the device keeps the session active. -/
theorem run_stays_active (p : Nat) (hwrap : p + ACTIVE_TIME < ULONG_RANGE)
    (ins : List TickInput) (s s2 : State)
    (hready : s.systemReady = true) (hbp : s.buttonPressed = false)
    (hd : s.displayBuffer ≠ none) (ha : s.isActive = true) (hla : s.lastActivation = p)
    (hno : noPressAfter s.lastButtonState ins = true)
    (hclk : ∀ i ∈ ins, p ≤ i.now ∧ i.now ≤ p + ACTIVE_TIME)
    (hrun : (run s ins).1 = Outcome.running s2) :
    s2.systemReady = true ∧ s2.buttonPressed = false ∧ s2.displayBuffer ≠ none ∧
      s2.isActive = true ∧ s2.lastActivation = p := by
  induction ins generalizing s with
  | nil =>
    simp only [run] at hrun
    cases hrun
    exact ⟨hready, hbp, hd, ha, hla⟩
  | cons i rest ih =>
    rw [run_cons] at hrun
    simp only [noPressAfter, Bool.and_eq_true] at hno
    have hnp : pressRecognised s i = false := by
      have h1 := hno.1
      unfold pressRecognised
      cases hb : i.button <;> cases hl : s.lastButtonState <;> simp [hb, hl] at h1 ⊢
    cases hst : (loop s i).1.state? with
    | none => rw [hst] at hrun; cases hrun
    | some s1 =>
      rw [hst] at hrun
      have hstep := state?_eq_some _ _ hst
      obtain ⟨l1, l2, l3, l4, l5, _, _, l8⟩ := loop_tick s i s1 hready hbp hstep
      obtain ⟨c1, c2⟩ := hclk i (List.mem_cons_self _ _)
      have husub : usub i.now s.lastActivation ≤ ACTIVE_TIME := by
        rw [hla, usub_of_le i.now p c1 (by omega)]
        omega
      refine ih s1 l1 l2 (l5 hd) ((l8 hnp ha hd).2 husub) ?_ (by rw [l3]; exact hno.2)
        (fun j hj => hclk j (List.mem_cons_of_mem _ hj)) hrun
      rw [l4, hnp]
      simpa using hla

/-- C7 (amended): if the last recognised press happened in a tick with clock reading `p` and
no press is recognised afterwards, the state is Active after the press tick and after every
later tick with `p <= now <= p + 300000`, and it is Standby after the first tick with
`now > p + 300000` (clock not wrapped); ticks that end in `ESP.restart()` apart.  At
`now = p + 300000` the test `now - lastActivation > ACTIVE_TIME` is still false. -/
theorem timeout_after_press (s : State) (press : TickInput) (s1 : State)
    (ins : List TickInput) (s2 : State) (hr : Reachable s)
    (hp : pressRecognised s press = true)
    (hstep : (loop s press).1 = Outcome.running s1)
    (hno : noPressAfter press.button ins = true)
    (hclk : ∀ i ∈ ins, press.now ≤ i.now ∧ i.now ≤ press.now + 300000)
    (hwrap : press.now + 300000 < ULONG_RANGE)
    (hrun : (run s1 ins).1 = Outcome.running s2) :
    s1.isActive = true ∧ s2.isActive = true ∧ s2.lastActivation = press.now ∧
      ∀ last s3, pressRecognised s2 last = false → press.now + 300000 < last.now →
        last.now < ULONG_RANGE → (loop s2 last).1 = Outcome.running s3 →
        s3.isActive = false := by
  obtain ⟨r1, r2, r3⟩ := reachable_inv s hr
  obtain ⟨l1, l2, l3, l4, l5, l6, _, _⟩ := loop_tick s press s1 r1 r2 hstep
  have hla : s1.lastActivation = press.now := by rw [l4, hp]; simp
  obtain ⟨k1, k2, k3, k4, k5⟩ := run_stays_active press.now (by simpa [ACTIVE_TIME] using hwrap)
    ins s1 s2 l1 l2 (l5 r3) (l6 hp) hla (by rw [l3]; exact hno)
    (by simpa [ACTIVE_TIME] using hclk) hrun
  refine ⟨l6 hp, k4, k5, ?_⟩
  intro last s3 hnp hlt hlast hl
  obtain ⟨_, _, _, _, _, _, _, m8⟩ := loop_tick s2 last s3 k1 k2 hl
  have hiff := m8 hnp k4 k3
  cases hact : s3.isActive with
  | false => rfl
  | true =>
    have hle := hiff.1 hact
    rw [k5, usub_of_le last.now press.now (by omega) hlast] at hle
    simp only [ACTIVE_TIME] at hle
    omega

theorem timeout_after_press_witness :
    pressRecognised stateReleased (tickLow 1000) = true ∧
      (loop stateReleased (tickLow 1000)).1 = Outcome.running statePressed ∧
      (run statePressed [tickLow 301000]).1 = Outcome.running stateAtDeadline ∧
      stateAtDeadline.isActive = true ∧ stateAtDeadline.lastActivation = 1000 :=
  ⟨rfl, rfl, rfl,
    (timeout_after_press stateReleased (tickLow 1000) statePressed [tickLow 301000]
      stateAtDeadline (Reachable.tick bootState _ (tickHigh 0) Reachable.boot rfl)
      rfl rfl rfl (by decide) (by decide) rfl).2.1,
    (timeout_after_press stateReleased (tickLow 1000) statePressed [tickLow 301000]
      stateAtDeadline (Reachable.tick bootState _ (tickHigh 0) Reachable.boot rfl)
      rfl rfl rfl (by decide) (by decide) rfl).2.2.1⟩

/-- C7 as stated fails: after a press at clock reading 1000, the tick at 301000
(`= 1000 + 300000`) leaves the session Active; it ends in the tick at 301001. -/
theorem active_at_deadline :
    ((run bootState [tickHigh 0, tickLow 1000, tickLow 301000]).1.state?.map
        fun s => (s.isActive, s.lastActivation)) = some (true, 1000) ∧
      ((run bootState [tickHigh 0, tickLow 1000, tickLow 301001]).1.state?.map
        fun s => (s.isActive, s.lastActivation)) = some (false, 1000) := by
  decide

/-- C8: in every pass of `loop()` from a reachable state that returns, `lastActivation`
afterwards is the tick's `now` if a press was recognised in the tick (sampled level `LOW`,
previous sample `HIGH`), whether the session was Active or not, and is unchanged otherwise;
the frame cycle and the timeout check leave it as it is. -/
theorem lastActivation_update (s : State) (inp : TickInput) (s1 : State) (hr : Reachable s)
    (h : (loop s inp).1 = Outcome.running s1) :
    s1.lastActivation =
        (if inp.button = false ∧ s.lastButtonState = true then inp.now
          else s.lastActivation) ∧
      (∀ s0 i s2, (frameCycle s0 i).1.state? = some s2 →
        s2.lastActivation = s0.lastActivation) ∧
      (∀ s0 now, (timeoutCheck s0 now).1.lastActivation = s0.lastActivation) := by
  obtain ⟨r1, r2, _⟩ := reachable_inv s hr
  obtain ⟨_, _, _, l4, _⟩ := loop_tick s inp s1 r1 r2 h
  refine ⟨?_, fun s0 i s2 h2 => (frameCycle_frame s0 i s2 h2).1,
    fun s0 now => (timeoutCheck_fields s0 now).1⟩
  rw [l4]
  unfold pressRecognised
  cases inp.button <;> cases s.lastButtonState <;> simp

theorem lastActivation_update_witness :
    (loop stateReleased (tickLow 1000)).1 = Outcome.running statePressed ∧
      statePressed.lastActivation =
        (if (tickLow 1000).button = false ∧ stateReleased.lastButtonState = true
          then (tickLow 1000).now else stateReleased.lastActivation) :=
  ⟨rfl, (lastActivation_update stateReleased (tickLow 1000) statePressed
    (Reachable.tick bootState _ (tickHigh 0) Reachable.boot rfl) rfl).1⟩

/-- C9 (amended): a recognised press while in Standby makes the state Active and resets the
session frame counter: right after the button-handling step of that tick `isActive` is true,
`frameCounter` is 0, `lastActivation` and `lastFrameTime` are the tick's `now`; `fpsCounter`
is left as it was. -/
theorem press_in_standby (s : State) (inp : TickInput) (hs : s.isActive = false)
    (hp : pressRecognised s inp = true) :
    (buttonStep s inp.now inp.button).1.isActive = true ∧
      (buttonStep s inp.now inp.button).1.frameCounter = 0 ∧
      (buttonStep s inp.now inp.button).1.lastActivation = inp.now ∧
      (buttonStep s inp.now inp.button).1.lastFrameTime = inp.now ∧
      (buttonStep s inp.now inp.button).1.fpsCounter = s.fpsCounter := by
  obtain ⟨b1, b2, _, _, _, _, b7, _, b9, _⟩ := buttonStep_press s inp hp
  exact ⟨b1, (b9 hs).1, b2, (b9 hs).2.1, b7⟩

theorem press_in_standby_witness :
    (buttonStep { bootState with lastButtonState := true, fpsCounter := 1 }
        (tickLow 400100).now (tickLow 400100).button).1.fpsCounter = 1 :=
  (press_in_standby { bootState with lastButtonState := true, fpsCounter := 1 }
    (tickLow 400100) rfl rfl).2.2.2.2

/-- C9 as stated fails: one successful frame in a first session leaves `fpsCounter = 1`;
after the timeout the next press in Standby makes the state Active with `frameCounter = 0`
and `fpsCounter` still 1. -/
theorem fpsCounter_survives_press :
    ((run bootState [tickHigh 0, tickLow 10, tickFrame 100 goodFrame true,
        tickHigh 400000]).1.state?.map fun s =>
          (s.isActive, pressRecognised s (tickLow 400100),
            (buttonStep s 400100 false).1.isActive,
            (buttonStep s 400100 false).1.frameCounter,
            (buttonStep s 400100 false).1.fpsCounter)) =
      some (false, true, true, 0, 1) := by
  decide

/-! ## FPS counter -/

theorem pendingAfter_append (a b : List Event) (p : Nat) :
    pendingAfter p (a ++ b) = pendingAfter (pendingAfter p a) b := by
  induction a generalizing p with
  | nil => rfl
  | cons e rest ih => cases e <;> simp [pendingAfter, ih]

theorem reportsExact_append (a b : List Event) (p : Nat) :
    reportsExact p (a ++ b) = (reportsExact p a && reportsExact (pendingAfter p a) b) := by
  induction a generalizing p with
  | nil => simp [reportsExact, pendingAfter]
  | cons e rest ih => cases e <;> simp [reportsExact, pendingAfter, ih, Bool.and_assoc]

/-- The button step keeps the FPS invariant and emits no frame or report event. -/
theorem buttonStep_fps (s : State) (now : Nat) (button : Bool) (t p : Nat)
    (hinv : FpsInv s t p) (ht : t ≤ now) :
    FpsInv (buttonStep s now button).1 now p ∧
      ((buttonStep s now button).2 = [] ∨
        (buttonStep s now button).2 = [Event.screenActive]) := by
  obtain ⟨la, act, rdy, lft, fc, lbs, bp, lfu, fps, cur, ce, be, le, erm, db⟩ := s
  simp only [FpsInv] at hinv
  obtain ⟨i1, i2, i3, i4, i5⟩ := hinv
  cases button <;> cases lbs <;> cases bp <;> cases act <;>
    simp [buttonStep, FpsInv] <;> omega

theorem timeoutCheck_events (s : State) (now : Nat) :
    (timeoutCheck s now).2 = [] ∨ (timeoutCheck s now).2 = [Event.screenStandby] := by
  unfold timeoutCheck
  split
  · exact Or.inr rfl
  · exact Or.inl rfl

theorem timeoutCheck_fps (s : State) (now t p : Nat) (hinv : FpsInv s t p) :
    FpsInv (timeoutCheck s now).1 t p := by
  obtain ⟨_, _, _, _, _, t6, t7, t8, _, _⟩ := timeoutCheck_fields s now
  unfold FpsInv at hinv ⊢
  rw [t6, t7, t8]
  exact hinv

/-- A frame cycle keeps the FPS invariant: a report shows the exact number of frames drawn
since the previous report, at most 100, and the 8-bit counter does not wrap. -/
theorem frameCycle_fps (s : State) (inp : TickInput) (t p : Nat) (hinv : FpsInv s t p)
    (ht : t ≤ inp.now) (hn : inp.now < ULONG_RANGE)
    (hdue : 50 ≤ usub inp.now s.lastFrameTime) :
    reportsExact p (frameCycle s inp).2 = true ∧
      (∀ v, Event.printFPS v ∈ (frameCycle s inp).2 → v ≤ 100) ∧
      ∀ s1, (frameCycle s inp).1.state? = some s1 →
        FpsInv s1 inp.now (pendingAfter p (frameCycle s inp).2) := by
  obtain ⟨i1, i2, i3, i4, i5⟩ := hinv
  have hlft : s.lastFrameTime ≤ inp.now := le_trans i3 ht
  rw [usub_of_le inp.now s.lastFrameTime hlft hn] at hdue
  have hlfu : usub inp.now s.lastFPSUpdate = inp.now - s.lastFPSUpdate :=
    usub_of_le inp.now s.lastFPSUpdate (le_trans i2 hlft) hn
  cases hfl : faulty inp with
  | false =>
    unfold faulty at hfl
    cases hfb : inp.fb with
    | none => rw [hfb] at hfl; cases hfl
    | some fb =>
      rw [hfb] at hfl
      have hok : fbOk fb = true := by simpa using hfl
      rw [frameCycle_valid s inp fb hfb hok]
      by_cases hd : s.displayBuffer = none
      · cases hr : inp.reallocOk with
        | false =>
          rw [frameSuccess_noBuffer_fail _ inp fb (by exact hd) hr]
          refine ⟨by simp [reportsExact], by simp, ?_⟩
          intro s1 h
          cases h
        | true =>
          rw [frameSuccess_noBuffer_ok _ inp fb (by exact hd) hr]
          refine ⟨by simp [reportsExact], by simp, ?_⟩
          intro s1 h
          cases h
          simp only [FpsInv, pendingAfter]
          omega
      · obtain ⟨disp, hdb⟩ : ∃ d, s.displayBuffer = some d := by
          cases hx : s.displayBuffer with
          | none => exact absurd hx hd
          | some d => exact ⟨d, rfl⟩
        have hmod : (s.fpsCounter + 1) % 256 = p + 1 := by
          rw [i1]; exact Nat.mod_eq_of_lt (by omega)
        by_cases hrep : 5000 ≤ usub inp.now s.lastFPSUpdate
        · rw [frameSuccess_report _ inp fb disp (by exact hdb) (by exact hrep)]
          refine ⟨by simp [reportsExact, hmod], ?_, ?_⟩
          · intro v hv
            simp only [List.mem_cons, Event.printFPS.injEq, List.mem_singleton,
              reduceCtorEq, false_or, or_false, List.not_mem_nil] at hv
            omega
          · intro s1 h
            cases h
            simp [FpsInv, pendingAfter]
        · rw [frameSuccess_plain _ inp fb disp (by exact hdb)
            (by exact Nat.not_le.1 hrep)]
          refine ⟨by simp [reportsExact], by simp, ?_⟩
          intro s1 h
          cases h
          simp only [FpsInv, pendingAfter]
          rw [hlfu] at hrep
          omega
  | true =>
    rw [frameCycle_faulty s inp hfl]
    by_cases hq : (s.cameraErrors + 1) % 256 ≤ 5 ∨ s.errorRecoveryMode = true
    · rw [cameraFault_quiet _ _ _ _ (by exact hq)]
      refine ⟨by cases inp.fb.isSome <;> simp [reportsExact],
        by cases inp.fb.isSome <;> simp, ?_⟩
      intro s1 h
      cases h
      have hpa : pendingAfter p
          (Event.fbGet :: if inp.fb.isSome = true then [Event.fbReturn] else []) = p := by
        cases inp.fb.isSome <;> simp [pendingAfter]
      rw [hpa]
      simp only [FpsInv]
      omega
    · have h1 : 5 < (s.cameraErrors + 1) % 256 := by omega
      have h2 : s.errorRecoveryMode = false := by
        cases hrm : s.errorRecoveryMode with
        | false => rfl
        | true => exact absurd (Or.inr hrm) hq
      cases hr : inp.reinitOk with
      | false =>
        rw [cameraFault_reinit_fail _ _ _ (by exact h1) (by exact h2)]
        refine ⟨by simp [reportsExact], by simp, ?_⟩
        intro s1 h
        cases h
      | true =>
        rw [cameraFault_reinit_ok _ _ _ (by exact h1) (by exact h2)]
        refine ⟨by cases inp.fb.isSome <;> simp [reportsExact],
          by cases inp.fb.isSome <;> simp, ?_⟩
        intro s1 h
        cases h
        have hpa : pendingAfter p
            (Event.fbGet :: ([Event.displayError ErrorMsg.kameraFehler
                ((s.cameraErrors + 1) % 256), Event.reinitializeCamera,
              Event.screenCameraOk] ++
              if inp.fb.isSome = true then [Event.fbReturn] else [])) = p := by
          cases inp.fb.isSome <;> simp [pendingAfter]
        rw [hpa]
        simp only [FpsInv]
        omega

/-- Traces of the button step and of the timeout check hold no frame and no report. -/
theorem neutral_events (ev : List Event)
    (h : ev = [] ∨ ev = [Event.screenActive] ∨ ev = [Event.screenStandby]) (p : Nat) :
    reportsExact p ev = true ∧ pendingAfter p ev = p ∧ ∀ v, Event.printFPS v ∉ ev := by
  rcases h with h | h | h <;> subst h <;> simp [reportsExact, pendingAfter]

theorem fpsInv_mono (s : State) (t u p : Nat) (h : FpsInv s t p) (htu : t ≤ u) :
    FpsInv s u p := by
  obtain ⟨i1, i2, i3, i4, i5⟩ := h
  exact ⟨i1, i2, le_trans i3 htu, i4, i5⟩

theorem activeStep_fps (b : State) (inp : TickInput) (p : Nat) (hinv : FpsInv b inp.now p)
    (hn : inp.now < ULONG_RANGE) :
    reportsExact p (activeStep b inp).2 = true ∧
      (∀ v, Event.printFPS v ∈ (activeStep b inp).2 → v ≤ 100) ∧
      ∀ s1, (activeStep b inp).1 = Outcome.running s1 →
        FpsInv s1 inp.now (pendingAfter p (activeStep b inp).2) := by
  by_cases hdue : 50 ≤ usub inp.now b.lastFrameTime
  · obtain ⟨c1, c2, c3⟩ := frameCycle_fps b inp inp.now p hinv (le_refl _) hn hdue
    rcases exit_cases (frameCycle b inp).1 with he | ⟨s2, he⟩ | ⟨s2, he⟩
    · rw [activeStep_restarted b inp hdue he]
      exact ⟨c1, c2, fun s1 h => by cases h⟩
    · rw [activeStep_returned b inp s2 hdue he]
      refine ⟨c1, c2, fun s1 h => ?_⟩
      cases h
      exact c3 _ (by rw [he]; rfl)
    · rw [activeStep_fallthrough b inp s2 hdue he]
      obtain ⟨n1, n2, n3⟩ := neutral_events (timeoutCheck s2 inp.now).2
        (by rcases timeoutCheck_events s2 inp.now with h | h
            · exact Or.inl h
            · exact Or.inr (Or.inr h))
        (pendingAfter p (frameCycle b inp).2)
      refine ⟨by simp only []; rw [reportsExact_append, c1, n1]; rfl, ?_, fun s1 h => ?_⟩
      · intro v hv
        rcases List.mem_append.1 hv with h | h
        · exact c2 v h
        · exact absurd h (n3 v)
      · cases h
        simp only []
        rw [pendingAfter_append, n2]
        exact timeoutCheck_fps s2 inp.now inp.now _ (c3 s2 (by rw [he]; rfl))
  · rw [activeStep_skip b inp (Nat.not_le.1 hdue)]
    obtain ⟨n1, n2, n3⟩ := neutral_events (timeoutCheck b inp.now).2
      (by rcases timeoutCheck_events b inp.now with h | h
          · exact Or.inl h
          · exact Or.inr (Or.inr h)) p
    refine ⟨n1, fun v hv => absurd hv (n3 v), fun s1 h => ?_⟩
    cases h
    simp only []
    rw [n2]
    exact timeoutCheck_fps b inp.now inp.now p hinv

theorem loop_fps (s : State) (inp : TickInput) (t p : Nat) (hinv : FpsInv s t p)
    (ht : t ≤ inp.now) (hn : inp.now < ULONG_RANGE) :
    reportsExact p (loop s inp).2 = true ∧
      (∀ v, Event.printFPS v ∈ (loop s inp).2 → v ≤ 100) ∧
      ∀ s1, (loop s inp).1 = Outcome.running s1 →
        FpsInv s1 inp.now (pendingAfter p (loop s inp).2) := by
  cases hr : s.systemReady with
  | false =>
    have hl : loop s inp = (Outcome.running s, []) := by
      unfold loop
      simp [hr]
    rw [hl]
    refine ⟨rfl, by simp, fun s1 h => ?_⟩
    cases h
    exact fpsInv_mono _ t inp.now p hinv ht
  | true =>
    obtain ⟨b1, b2⟩ := buttonStep_fps s inp.now inp.button t p hinv ht
    obtain ⟨n1, n2, n3⟩ := neutral_events (buttonStep s inp.now inp.button).2
      (by rcases b2 with h | h
          · exact Or.inl h
          · exact Or.inr (Or.inl h)) p
    cases ha : (buttonStep s inp.now inp.button).1.isActive with
    | false =>
      rw [loop_standby s inp hr ha]
      refine ⟨n1, fun v hv => absurd hv (n3 v), fun s1 h => ?_⟩
      cases h
      simp only []
      rw [n2]
      exact b1
    | true =>
      rw [loop_active s inp hr ha]
      obtain ⟨a1, a2, a3⟩ := activeStep_fps (buttonStep s inp.now inp.button).1 inp p b1 hn
      refine ⟨by simp only []; rw [reportsExact_append, n1, n2, a1]; rfl, ?_, fun s1 h => ?_⟩
      · intro v hv
        rcases List.mem_append.1 hv with h | h
        · exact absurd h (n3 v)
        · exact a2 v h
      · simp only []
        rw [pendingAfter_append, n2]
        exact a3 s1 h

theorem run_fps (ins : List TickInput) (s : State) (t p : Nat) (hinv : FpsInv s t p)
    (hclk : clockOk t ins = true) :
    reportsExact p (run s ins).2 = true ∧
      (∀ v, Event.printFPS v ∈ (run s ins).2 → v ≤ 100) ∧
      ∀ s2, (run s ins).1 = Outcome.running s2 → s2.fpsCounter ≤ 99 := by
  induction ins generalizing s t p with
  | nil =>
    refine ⟨rfl, by simp [run], fun s2 h => ?_⟩
    simp only [run] at h
    cases h
    obtain ⟨i1, _, _, _, i5⟩ := hinv
    rw [i1]
    exact i5
  | cons i rest ih =>
    simp only [clockOk, Bool.and_eq_true, decide_eq_true_eq] at hclk
    obtain ⟨⟨c1, c2⟩, c3⟩ := hclk
    obtain ⟨l1, l2, l3⟩ := loop_fps s i t p hinv c1 c2
    rw [run_cons]
    cases hst : (loop s i).1.state? with
    | none => exact ⟨l1, l2, fun s2 h => by cases h⟩
    | some s1 =>
      have hstep := state?_eq_some _ _ hst
      obtain ⟨r1, r2, r3⟩ := ih s1 i.now (pendingAfter p (loop s i).2) (l3 s1 hstep) c3
      refine ⟨by simp only []; rw [reportsExact_append, l1, r1]; rfl, ?_, r3⟩
      intro v hv
      rcases List.mem_append.1 hv with h | h
      · exact l2 v h
      · exact r2 v h

/-- C10: when the clock readings of successive ticks are non-decreasing and below `2^32`,
in every state reached from `setup()` `fpsCounter <= 100`; every FPS report shows the exact
number of successful frames (`drawRGBBitmap`) since the previous report, counted without
wrap-around, and that number is at most 100. -/
theorem fpsCounter_exact (ins : List TickInput) (hclk : clockOk 0 ins = true) :
    (∀ s, (run bootState ins).1 = Outcome.running s → s.fpsCounter ≤ 100) ∧
      reportsExact 0 (run bootState ins).2 = true ∧
      (∀ v, Event.printFPS v ∈ (run bootState ins).2 → v ≤ 100) := by
  have hboot : FpsInv bootState 0 0 := by
    simp [FpsInv, bootState]
  obtain ⟨r1, r2, r3⟩ := run_fps ins bootState 0 0 hboot hclk
  exact ⟨fun s h => le_trans (r3 s h) (by decide), r1, r2⟩

theorem fpsCounter_exact_witness :
    clockOk 0 [tickHigh 0, tickLow 10, tickFrame 100 goodFrame true,
        tickFrame 5200 goodFrame true] = true ∧
      reportsExact 0 (run bootState [tickHigh 0, tickLow 10, tickFrame 100 goodFrame true,
        tickFrame 5200 goodFrame true]).2 = true :=
  ⟨by decide, (fpsCounter_exact [tickHigh 0, tickLow 10, tickFrame 100 goodFrame true,
    tickFrame 5200 goodFrame true] (by decide)).2.1⟩

end NightVision
